import Mathlib

/-!
# lguf-brightness-control: verification of `main.cpp`

A shallow embedding of the brightness controller for the LG UltraFine display
(`src/main.cpp`) and proofs about its report codec, its device locator and its
session state machine.

Modelling conventions

* A `float` is the rational it denotes.  Every float operation of the program
  (`/`, `*`, `+=`, `-=`) is the exact operation followed by `f32`, rounding to the
  nearest binary32 value with ties to even, subnormal values included.  The
  variable `brightness` is finite in every state: it is read from a 16-bit
  report or moved by `0.01f`.  A product with 54000 beyond the binary32 range is
  infinite in the program; it is outside the range of `int` like every value
  from `2^31` on and converts the same way.
* `int(x)` truncates toward zero when the result fits in 32 bits.  Otherwise
  the C++ conversion is undefined; the x86 conversion instruction returns
  `INT_MIN`, and so does `int_of_float`.
* `uint16_t` is a natural number reduced `% 65536`, `u_char` one reduced `% 256`.
* libusb is an external library.  Every call the program makes is appended to a
  log (`Usb.calls`), and what libusb answers is a parameter (`Acq`, `Env`).
  A successful `libusb_open` creates a new handle, numbered by `Usb.next`.
* `throw std::runtime_error(..)` is `Except.error (Exn.runtime_error ..)`; calls
  logged before the throw stay logged.
-/

namespace LgUf

/-! ## Constants -/

/-- Source: `static const int HID_GET_REPORT = 0x01;` -/
def HID_GET_REPORT : Nat := 0x01
/-- Source: `static const int HID_SET_REPORT = 0x09;` -/
def HID_SET_REPORT : Nat := 0x09
/-- Source: `static const int HID_REPORT_TYPE_FEATURE = 0x03;` -/
def HID_REPORT_TYPE_FEATURE : Nat := 0x03

/-- Value of `LIBUSB_ENDPOINT_IN` in `libusb.h`. -/
def LIBUSB_ENDPOINT_IN : Nat := 0x80
/-- Value of `LIBUSB_ENDPOINT_OUT` in `libusb.h`. -/
def LIBUSB_ENDPOINT_OUT : Nat := 0x00
/-- Value of `LIBUSB_REQUEST_TYPE_CLASS` in `libusb.h`. -/
def LIBUSB_REQUEST_TYPE_CLASS : Nat := 0x20
/-- Value of `LIBUSB_RECIPIENT_INTERFACE` in `libusb.h`. -/
def LIBUSB_RECIPIENT_INTERFACE : Nat := 0x01

/-- Value of `WM_DESTROY` in `windows.h`. -/
def WM_DESTROY : Nat := 0x0002
/-- Value of `WM_DEVICECHANGE` in `windows.h`. -/
def WM_DEVICECHANGE : Nat := 0x0219

/-- Source: `const uint16_t vendor_id = 0x43e;` in `get_lg_ultrafine`. -/
def vendor_id : Nat := 0x43e
/-- Source: `const uint16_t product_id = 0x9A63;` in `get_lg_ultrafine`. -/
def product_id : Nat := 0x9A63

/-! ## binary32 arithmetic -/

/-- Rounding of a real to the nearest integer, ties to the even one. -/
def roundEven (m : ℚ) : Int :=
  if m - ⌊m⌋ < 1 / 2 then ⌊m⌋
  else if 1 / 2 < m - ⌊m⌋ then ⌊m⌋ + 1
  else if ⌊m⌋ % 2 = 0 then ⌊m⌋ else ⌊m⌋ + 1

/-- Exponent of the spacing of binary32 values around `x`: 23 below the
exponent of `x`, and `-149` for every subnormal `x`. -/
def ulpExp (x : ℚ) : Int := max (Int.log 2 |x|) (-126) - 23

/-- The binary32 value nearest to the real `x`, ties to even: the result of a
`float` operation whose exact result is `x`. -/
def f32 (x : ℚ) : ℚ := (roundEven (x / 2 ^ ulpExp x) : ℚ) * 2 ^ ulpExp x

/-- The literal `0.01f` of lines 160 and 171. -/
def float_0_01 : ℚ := f32 (1 / 100)

/-- Truncation toward zero. -/
def truncToInt (x : ℚ) : Int := if 0 ≤ x then ⌊x⌋ else ⌈x⌉

/-- The conversion `int(x)` of a `float`: truncation toward zero when the
result fits in 32 bits, `INT_MIN` otherwise. -/
def int_of_float (x : ℚ) : Int :=
  if -2 ^ 31 ≤ truncToInt x ∧ truncToInt x < 2 ^ 31 then truncToInt x else -2 ^ 31

/-! ## Report codec -/

/-- Line 31 of `set_brightness`:
`uint16_t brightness_value = max(min(int(brightness * 54000), 54000), 0);`
with the `float` product `brightness * 54000`. -/
def brightness_value (brightness : ℚ) : Nat :=
  ((max (min (int_of_float (f32 (brightness * 54000))) 54000) 0) % 65536).toNat

/-- Lines 33-35 of `set_brightness`: the six bytes of the report,
`{ u_char(v & 0x00ff), u_char((v >> 8) & 0x00ff), 0, 0, 0, 0 }`. -/
def set_report_data (v : Nat) : List Nat :=
  [(v &&& 0x00ff) % 256, ((v >>> 8) &&& 0x00ff) % 256, 0x00, 0x00, 0x00, 0x00]

/-- Line 26 of `get_brightness`:
`uint16_t brightness_value = data[0] + (data[1] << 8);` -/
def report_value (data : List Nat) : Nat :=
  (data.getD 0 0 + (data.getD 1 0 <<< 8)) % 65536

/-- Line 27 of `get_brightness`: the `float` quotient
`float(brightness_value) / 54000.f`. -/
def decode_level (data : List Nat) : ℚ := f32 ((report_value data : ℚ) / 54000)

/-! ## libusb as the program sees it -/

/-- A device handle, identified by the number of the successful `libusb_open`
that created it. -/
abbrev Handle := Nat

/-- The libusb calls made by the program, with their arguments.  `libusb_open`
also records the handle it produced (`none` when it failed); for
`libusb_control_transfer` the data is the buffer content passed in. -/
inductive Call where
  | libusb_get_device_list
  | libusb_get_device_descriptor (dev : Nat)
  | libusb_free_device_list
  | libusb_open (dev : Nat) (result : Option Handle)
  | libusb_set_auto_detach_kernel_driver (handle : Handle) (enable : Nat)
  | libusb_claim_interface (handle : Handle) (interface_number : Nat)
  | libusb_close (handle : Handle)
  | libusb_control_transfer (handle : Handle)
      (bmRequestType bRequest wValue wIndex : Nat) (data : List Nat) (wLength timeout : Nat)
  deriving DecidableEq, Repr

/-- The log of libusb calls made so far and the number of the next handle. -/
structure Usb where
  calls : List Call
  next : Handle
  deriving DecidableEq, Repr

/-- Appends a call to the log. -/
def Usb.log (u : Usb) (c : Call) : Usb := { u with calls := u.calls ++ [c] }

/-- The two fields of `libusb_device_descriptor` that the program reads. -/
structure Descriptor where
  idVendor : Nat
  idProduct : Nat
  deriving DecidableEq, Repr

/-- What libusb answers during one acquisition.
`deviceList` is `none` when `libusb_get_device_list` returns a negative count,
otherwise one entry per device in enumeration order: `none` when
`libusb_get_device_descriptor` returns an error for it, else its descriptor.
`openErr` and `claimErr` are the return codes of `libusb_open` and
`libusb_claim_interface`; `getBytes` is the return value of the GET_REPORT
transfer and `getPayload` the bytes the device put at the start of the buffer. -/
structure Acq where
  deviceList : Option (List (Option Descriptor))
  openErr : Int
  claimErr : Int
  getBytes : Int
  getPayload : List Nat
  deriving DecidableEq, Repr

/-- What libusb answers while one window message is handled: the return value
of the SET_REPORT transfer, and the answers to an acquisition if one runs. -/
structure Env where
  setBytes : Int
  acq : Acq
  deriving DecidableEq, Repr

/-- The only exception type thrown: `std::runtime_error`. -/
inductive Exn where
  | runtime_error (what : String)
  deriving DecidableEq, Repr

/-- Content of `u_char data[len] = { 0x00 }` after a transfer stored `payload`
at its start: each cell holds a `u_char`, cells past the payload stay zero. -/
def received (len : Nat) (payload : List Nat) : List Nat :=
  (List.range len).map fun i => payload.getD i 0 % 256

/-! ## The functions of `main.cpp` -/

/-- Source: `get_brightness` (lines 19-28). -/
def get_brightness (a : Acq) (u : Usb) (handle : Handle) : Usb × Except Exn ℚ :=
  let data0 : List Nat := List.replicate 8 0x00
  let u1 := u.log (.libusb_control_transfer handle
    (LIBUSB_ENDPOINT_IN ||| LIBUSB_REQUEST_TYPE_CLASS ||| LIBUSB_RECIPIENT_INTERFACE)
    HID_GET_REPORT ((HID_REPORT_TYPE_FEATURE <<< 8) ||| 0) 1 data0 8 0)
  let bytes := a.getBytes
  let data := received 8 a.getPayload
  if bytes < 0 then
    (u1, .error (.runtime_error "Unable to get brightness: libusb_control_transfer error."))
  else
    (u1, .ok (decode_level data))

/-- Source: `set_brightness` (lines 30-42). -/
def set_brightness (e : Env) (u : Usb) (handle : Handle) (brightness : ℚ) :
    Usb × Except Exn Unit :=
  let data := set_report_data (brightness_value brightness)
  let u1 := u.log (.libusb_control_transfer handle
    (LIBUSB_ENDPOINT_OUT ||| LIBUSB_REQUEST_TYPE_CLASS ||| LIBUSB_RECIPIENT_INTERFACE)
    HID_SET_REPORT ((HID_REPORT_TYPE_FEATURE <<< 8) ||| 0) 1 data 6 0)
  let bytes := e.setBytes
  if bytes < 0 then
    (u1, .error (.runtime_error "Unable to set brightness: libusb_control_transfer error."))
  else
    (u1, .ok ())

/-- The `for` loop of `get_lg_ultrafine` (lines 53-74), from device `i` on,
with the devices still to visit. -/
def get_lg_ultrafine_loop (openErr : Int) :
    List (Option Descriptor) → Nat → Usb → Usb × Except Exn (Option Handle)
  | [], _, u => (u.log .libusb_free_device_list, .ok none)
  | d :: rest, i, u =>
    let u1 := u.log (.libusb_get_device_descriptor i)
    match d with
    | none =>
      (u1.log .libusb_free_device_list, .error (.runtime_error "Failed to get device descriptor"))
    | some descriptor =>
      if descriptor.idVendor = vendor_id ∧ descriptor.idProduct = product_id then
        let u2 : Usb :=
          if openErr = 0 then
            { calls := u1.calls ++ [.libusb_open i (some u1.next)], next := u1.next + 1 }
          else u1.log (.libusb_open i none)
        let u3 := u2.log .libusb_free_device_list
        if openErr ≠ 0 then
          (u3, .error (.runtime_error "libusb_open failed"))
        else
          (u3, .ok (some u1.next))
      else
        get_lg_ultrafine_loop openErr rest (i + 1) u1

/-- Source: `get_lg_ultrafine` (lines 44-75). -/
def get_lg_ultrafine (a : Acq) (u : Usb) : Usb × Except Exn (Option Handle) :=
  let u1 := u.log .libusb_get_device_list
  match a.deviceList with
  | none => (u1, .error (.runtime_error "Unable to get USB device list."))
  | some devices => get_lg_ultrafine_loop a.openErr devices 0 u1

/-- Source: `init_lg_ultrafine` (lines 77-86). -/
def init_lg_ultrafine (a : Acq) (u : Usb) : Usb × Except Exn (Option Handle) :=
  match get_lg_ultrafine a u with
  | (u1, .error err) => (u1, .error err)
  | (u1, .ok none) => (u1, .ok none)
  | (u1, .ok (some handle)) =>
    let u2 := u1.log (.libusb_set_auto_detach_kernel_driver handle 1)
    let u3 := u2.log (.libusb_claim_interface handle 1)
    if a.claimErr ≠ 0 then
      (u3, .error (.runtime_error "Failed to claim interface 1."))
    else
      (u3, .ok (some handle))

/-- The globals `handle` and `brightness` (lines 88-89) and the libusb log. -/
structure State where
  handle : Option Handle
  brightness : ℚ
  usb : Usb
  deriving DecidableEq, Repr

/-- Source: `reinit_handle` (lines 91-102).  `catch (std::runtime_error err)`
handles every exception thrown by the functions above. -/
def reinit_handle (a : Acq) (s : State) : State :=
  let u0 : Usb :=
    match s.handle with
    | some handle => s.usb.log (.libusb_close handle)
    | none => s.usb
  match init_lg_ultrafine a u0 with
  | (u1, .error _) => { handle := none, brightness := s.brightness, usb := u1 }
  | (u1, .ok none) => { handle := none, brightness := s.brightness, usb := u1 }
  | (u1, .ok (some handle)) =>
    match get_brightness a u1 handle with
    | (u2, .error _) => { handle := none, brightness := s.brightness, usb := u2 }
    | (u2, .ok b) => { handle := some handle, brightness := b, usb := u2 }

/-- Source: `WindowProc` (lines 150-184); `brightness -= 0.01f` and
`brightness += 0.01f` are `float` operations. -/
def WindowProc (e : Env) (uMsg : Nat) (s : State) : State :=
  if uMsg = WM_DESTROY then s
  else if uMsg = 1024 then
    match s.handle with
    | some handle =>
      let brightness := f32 (s.brightness - float_0_01)
      match set_brightness e s.usb handle brightness with
      | (u, .ok _) => { handle := s.handle, brightness := brightness, usb := u }
      | (u, .error _) =>
        reinit_handle e.acq { handle := s.handle, brightness := brightness, usb := u }
    | none => s
  else if uMsg = 1025 then
    match s.handle with
    | some handle =>
      let brightness := f32 (s.brightness + float_0_01)
      match set_brightness e s.usb handle brightness with
      | (u, .ok _) => { handle := s.handle, brightness := brightness, usb := u }
      | (u, .error _) =>
        reinit_handle e.acq { handle := s.handle, brightness := brightness, usb := u }
    | none => s
  else if uMsg = WM_DEVICECHANGE then reinit_handle e.acq s
  else s

/-- The globals at program start (`handle = NULL`, `brightness` zero-initialised)
with no libusb call made yet. -/
def initial : State := { handle := none, brightness := 0, usb := { calls := [], next := 0 } }

/-- The message loop of `wWinMain` (lines 141-144): the messages dispatched to
`WindowProc`, each with what libusb answers while it is handled. -/
def dispatch (s : State) : List (Env × Nat) → State
  | [] => s
  | (e, uMsg) :: rest => dispatch (WindowProc e uMsg s) rest

/-- Source: `wWinMain` (lines 104-148) after `libusb_init` succeeded:
`reinit_handle()` and then the message loop. -/
def wWinMain (a : Acq) (msgs : List (Env × Nat)) : State :=
  dispatch (reinit_handle a initial) msgs

/-! ## Vocabulary of the properties -/

/-- Test of line 61: both ids equal those of the LG UltraFine. -/
def isTarget (d : Descriptor) : Prop := d.idVendor = vendor_id ∧ d.idProduct = product_id

instance (d : Descriptor) : Decidable (isTarget d) := by unfold isTarget; infer_instance

/-- The handles passed to `libusb_close`, in call order. -/
def closesOf (calls : List Call) : List Handle :=
  calls.filterMap fun c => match c with
    | .libusb_close h => some h
    | _ => none

/-- The device indices passed to `libusb_open`, in call order. -/
def opensOf (calls : List Call) : List Nat :=
  calls.filterMap fun c => match c with
    | .libusb_open dev _ => some dev
    | _ => none

/-- A device with the target identity exists, and the descriptor reads of the
devices up to and including the first such device all succeed. -/
def FirstTargetRead (devs : List (Option Descriptor)) : Prop :=
  ∃ (k : Nat) (d : Descriptor), devs[k]? = some (some d) ∧ isTarget d ∧
    ∀ j : Nat, j < k → ∃ d' : Descriptor, devs[j]? = some (some d') ∧ ¬ isTarget d'

/-- Enumeration, the descriptor reads up to the first target device, open,
claim and the GET_REPORT transfer all succeed, and a target device exists. -/
def AcqSucceeds (a : Acq) : Prop :=
  ∃ devs, a.deviceList = some devs ∧ FirstTargetRead devs ∧
    a.openErr = 0 ∧ a.claimErr = 0 ∧ 0 ≤ a.getBytes

/-- The libusb log after the release step of `reinit_handle` (lines 92-93):
`libusb_close` is called on the held handle if there is one. -/
def released (s : State) : Usb :=
  match s.handle with
  | some handle => s.usb.log (.libusb_close handle)
  | none => s.usb

/-- The GET_REPORT transfer of `get_brightness` on `handle`: request type
`0xA1`, request `0x01`, value `0x0300`, index `1`, an 8-byte zeroed buffer. -/
def getReportCall (handle : Handle) : Call :=
  .libusb_control_transfer handle 0xA1 0x01 0x0300 1 [0, 0, 0, 0, 0, 0, 0, 0] 8 0

/-- The SET_REPORT transfer of `set_brightness` on `handle` with a 6-byte
buffer `data`: request type `0x21`, request `0x09`, value `0x0300`, index `1`. -/
def setReportCall (handle : Handle) (data : List Nat) : Call :=
  .libusb_control_transfer handle 0x21 0x09 0x0300 1 data 6 0

/-- The calls that an acquisition makes after the release step: every call
but `libusb_close`, and among the control transfers only GET_REPORT. -/
def isAcqCall : Call → Bool
  | .libusb_close _ => false
  | .libusb_control_transfer _ _ bRequest _ _ _ _ _ => decide (bRequest = HID_GET_REPORT)
  | _ => true

/-- The brightness after line 171 (`brightness += 0.01f`, message 1025) or
line 160 (`brightness -= 0.01f`, message 1024). -/
def stepped (uMsg : Nat) (b : ℚ) : ℚ :=
  if uMsg = 1025 then f32 (b + float_0_01) else f32 (b - float_0_01)

/-- Every SET_REPORT buffer in the log carries a raw value of at most 54000. -/
def SentInRange (calls : List Call) : Prop :=
  ∀ h data, setReportCall h data ∈ calls → report_value data ≤ 54000

/-- Handle discipline of a state: no handle was closed twice, every closed
handle was produced by an earlier `libusb_open`, and the handle held, if any,
was produced by an earlier `libusb_open` and has not been closed. -/
def HandlesOk (s : State) : Prop :=
  (closesOf s.usb.calls).Nodup ∧
  (∀ h ∈ closesOf s.usb.calls, h < s.usb.next) ∧
  ∀ h, s.handle = some h → h < s.usb.next ∧ h ∉ closesOf s.usb.calls

/-- The raw value as the specification computes it, in exact arithmetic:
`max(min(trunc(level * 54000), 54000), 0)`. -/
def claimedRaw (level : ℚ) : Int := max (min (truncToInt (level * 54000)) 54000) 0

/-- Some device in the enumeration has the target identity. -/
def Enumerable (a : Acq) : Prop :=
  ∃ devs, a.deviceList = some devs ∧ ∃ d, some d ∈ devs ∧ isTarget d

/-! ## Concrete inputs used in examples -/

/-- The descriptor ids of the LG UltraFine. -/
def ultrafine : Descriptor := { idVendor := 0x43e, idProduct := 0x9A63 }

/-- Another device: same vendor id, the product id of the 5k model. -/
def ultrafine5k : Descriptor := { idVendor := 0x43e, idProduct := 0x9a40 }

/-- An acquisition in which everything succeeds: the target is the second of
two devices and the report read back starts with the bytes `payload`. -/
def acqPresent (payload : List Nat) : Acq :=
  { deviceList := some [some ultrafine5k, some ultrafine]
    openErr := 0, claimErr := 0, getBytes := 8, getPayload := payload }

/-- An acquisition in which no device has the target identity. -/
def acqAbsent : Acq :=
  { deviceList := some [some ultrafine5k]
    openErr := 0, claimErr := 0, getBytes := 0, getPayload := [] }

/-- An acquisition in which the target is opened and claiming interface 1
fails with `LIBUSB_ERROR_BUSY` (-6). -/
def acqClaimFails : Acq :=
  { deviceList := some [some ultrafine]
    openErr := 0, claimErr := -6, getBytes := 0, getPayload := [] }

/-- A message during which the SET_REPORT transfer moves all 6 bytes. -/
def envOk : Env := { setBytes := 6, acq := acqAbsent }

/-- A message during which the SET_REPORT transfer fails with
`LIBUSB_ERROR_NO_DEVICE` (-4) and the device is then found again, reporting
the bytes `payload`. -/
def envFailThenPresent (payload : List Nat) : Env :=
  { setBytes := -4, acq := acqPresent payload }

/-- An active session on handle `0` with brightness `1/2`. -/
def activeHalf : State :=
  { handle := some 0, brightness := 1 / 2, usb := { calls := [], next := 1 } }

/-- An active session on handle `0` with brightness `0.999f`, the level
decoded from raw `53946`. -/
def activeNearTop : State :=
  { handle := some 0, brightness := 16760439 / 16777216, usb := { calls := [], next := 1 } }

/-- An active session on handle `0` with the level decoded from raw `1`. -/
def activeRawOne : State :=
  { handle := some 0, brightness := 10180663 / 549755813888, usb := { calls := [], next := 1 } }

/-! ## Lemmas on binary32 rounding -/

theorem roundEven_cases (m : ℚ) : roundEven m = ⌊m⌋ ∧ m - ⌊m⌋ ≤ 1 / 2 ∨
    roundEven m = ⌊m⌋ + 1 ∧ 1 / 2 ≤ m - ⌊m⌋ := by
  unfold roundEven
  split_ifs with h1 h2 h3
  · exact Or.inl ⟨rfl, h1.le⟩
  · exact Or.inr ⟨rfl, h2.le⟩
  · exact Or.inl ⟨rfl, not_lt.mp h2⟩
  · exact Or.inr ⟨rfl, not_lt.mp h1⟩

theorem roundEven_le (m : ℚ) (n : Int) (h : m ≤ n) : roundEven m ≤ n := by
  have hfl : ⌊m⌋ ≤ n := by
    have := Int.floor_le_floor h
    rwa [Int.floor_intCast] at this
  rcases roundEven_cases m with ⟨hr, -⟩ | ⟨hr, hh⟩
  · rw [hr]; exact hfl
  · rw [hr]
    have hlt : ⌊m⌋ < n := by
      have h1 : (⌊m⌋ : ℚ) < n := by linarith
      exact_mod_cast h1
    omega

theorem le_roundEven (m : ℚ) (n : Int) (h : (n : ℚ) ≤ m) : n ≤ roundEven m := by
  have hfl : n ≤ ⌊m⌋ := Int.le_floor.mpr h
  rcases roundEven_cases m with ⟨hr, -⟩ | ⟨hr, -⟩ <;> rw [hr] <;> omega

theorem roundEven_intCast (n : Int) : roundEven (n : ℚ) = n :=
  le_antisymm (roundEven_le _ _ le_rfl) (le_roundEven _ _ le_rfl)

theorem roundEven_eq (m : ℚ) (n : Int) (h : |m - n| < 1 / 2) : roundEven m = n := by
  rw [abs_lt] at h
  have hf := Int.floor_le m
  have hl := Int.lt_floor_add_one m
  rcases roundEven_cases m with ⟨hr, hh⟩ | ⟨hr, hh⟩
  · rw [hr]
    have h1 : ((⌊m⌋ : Int) : ℚ) < (n : ℚ) + 1 := by linarith
    have h2 : (n : ℚ) < (⌊m⌋ : ℚ) + 1 := by linarith
    have h1' : ⌊m⌋ < n + 1 := by exact_mod_cast h1
    have h2' : n < ⌊m⌋ + 1 := by exact_mod_cast h2
    omega
  · rw [hr]
    have h1 : ((⌊m⌋ : Int) : ℚ) + 1 < (n : ℚ) + 1 := by linarith
    have h2 : (n : ℚ) < (⌊m⌋ : ℚ) + 1 + 1 := by linarith
    have h1' : ⌊m⌋ + 1 < n + 1 := by exact_mod_cast h1
    have h2' : n < ⌊m⌋ + 1 + 1 := by exact_mod_cast h2
    omega

theorem ulp_pos (x : ℚ) : (0 : ℚ) < 2 ^ ulpExp x := by positivity

theorem f32_nonneg (x : ℚ) (h : 0 ≤ x) : 0 ≤ f32 x := by
  have hu := ulp_pos x
  have h0 : (0 : Int) ≤ roundEven (x / 2 ^ ulpExp x) :=
    le_roundEven _ 0 (by simpa using div_nonneg h hu.le)
  unfold f32
  exact mul_nonneg (by exact_mod_cast h0) hu.le

theorem f32_nonpos (x : ℚ) (h : x ≤ 0) : f32 x ≤ 0 := by
  have hu := ulp_pos x
  have h0 : roundEven (x / 2 ^ ulpExp x) ≤ (0 : Int) :=
    roundEven_le _ 0 (by simpa using div_nonpos_of_nonpos_of_nonneg h hu.le)
  unfold f32
  exact mul_nonpos_of_nonpos_of_nonneg (by exact_mod_cast h0) hu.le

/-- On a value that is an integer multiple of the spacing at `x`, rounding is monotone. -/
theorem f32_le_grid (x : ℚ) (n : Int) (h : x ≤ n * 2 ^ ulpExp x) : f32 x ≤ n * 2 ^ ulpExp x := by
  have hu := ulp_pos x
  have h0 : roundEven (x / 2 ^ ulpExp x) ≤ n := roundEven_le _ n (by rwa [div_le_iff₀ hu])
  unfold f32
  exact mul_le_mul_of_nonneg_right (by exact_mod_cast h0) hu.le

theorem grid_le_f32 (x : ℚ) (n : Int) (h : n * 2 ^ ulpExp x ≤ x) : n * 2 ^ ulpExp x ≤ f32 x := by
  have hu := ulp_pos x
  have h0 : n ≤ roundEven (x / 2 ^ ulpExp x) := le_roundEven _ n (by rwa [le_div_iff₀ hu])
  unfold f32
  exact mul_le_mul_of_nonneg_right (by exact_mod_cast h0) hu.le

theorem log_eq_of_bounds (x : ℚ) (e : Int) (h1 : 2 ^ e ≤ |x|) (h2 : |x| < 2 ^ (e + 1)) :
    Int.log 2 |x| = e := by
  have hpos : (0 : ℚ) < |x| := lt_of_lt_of_le (by positivity) h1
  have ha : e ≤ Int.log 2 |x| := (Int.zpow_le_iff_le_log (by norm_num) hpos).mp (by simpa using h1)
  have hb : Int.log 2 |x| < e + 1 := (Int.lt_zpow_iff_log_lt (by norm_num) hpos).mp (by simpa using h2)
  omega

/-- Evaluation of `f32` at a value whose binade and nearest multiple are given. -/
theorem f32_eval (x : ℚ) (e n : Int) (h1 : 2 ^ e ≤ |x|) (h2 : |x| < 2 ^ (e + 1))
    (h3 : -126 ≤ e) (h4 : |x / 2 ^ (e - 23) - n| < 1 / 2) : f32 x = n * 2 ^ (e - 23) := by
  have hu : ulpExp x = e - 23 := by
    unfold ulpExp
    rw [log_eq_of_bounds x e h1 h2, max_eq_left h3]
  unfold f32
  rw [hu, roundEven_eq _ n h4]

theorem f32_zero : f32 0 = 0 := by
  have h : roundEven (0 / 2 ^ ulpExp 0) = 0 := by
    rw [zero_div]; exact_mod_cast roundEven_intCast 0
  unfold f32
  rw [h]; simp

theorem ulpExp_le_of_lt (x : ℚ) (k : Int) (hx : x ≠ 0) (h : |x| < 2 ^ (24 + k)) (hk : -149 ≤ k) :
    ulpExp x ≤ k := by
  have hpos : (0 : ℚ) < |x| := abs_pos.mpr hx
  have hl : Int.log 2 |x| < 24 + k :=
    (Int.lt_zpow_iff_log_lt (by norm_num) hpos).mp (by simpa using h)
  unfold ulpExp
  have := max_le (a := Int.log 2 |x|) (b := -126) (c := k + 23) (by omega) (by omega)
  omega

theorem grid_of_le (m k q : Int) (hq : q ≤ k) :
    (m : ℚ) * 2 ^ k = ((m * 2 ^ (k - q).toNat : Int) : ℚ) * 2 ^ q := by
  have hk : k = (k - q).toNat + q := by omega
  have h2 : (2 : ℚ) ^ k = 2 ^ ((k - q).toNat : Int) * 2 ^ q := by
    rw [← zpow_add₀ (by norm_num : (2 : ℚ) ≠ 0)]
    congr 1
  rw [h2, zpow_natCast]
  push_cast
  ring

/-- A value `m * 2^k` with `|m| < 2^24` and `k ≥ -149` is a binary32 value: rounding keeps it. -/
theorem f32_of_repr (m k : Int) (hm : |m| < 2 ^ 24) (hk : -149 ≤ k) :
    f32 ((m : ℚ) * 2 ^ k) = (m : ℚ) * 2 ^ k := by
  by_cases h0 : m = 0
  · subst h0; simp [f32_zero]
  · have hx : (m : ℚ) * 2 ^ k ≠ 0 := mul_ne_zero (by exact_mod_cast h0) (by positivity)
    have hlt : |(m : ℚ) * 2 ^ k| < 2 ^ (24 + k) := by
      rw [abs_mul, abs_of_pos (by positivity : (0 : ℚ) < 2 ^ k), zpow_add₀ (by norm_num)]
      have hm' : |(m : ℚ)| < 2 ^ (24 : Int) := by
        have h1 : ((|m| : Int) : ℚ) < ((2 ^ 24 : Int) : ℚ) := by exact_mod_cast hm
        rw [Int.cast_abs] at h1
        norm_num at h1 ⊢
        exact h1
      exact mul_lt_mul_of_pos_right hm' (by positivity)
    have hq := ulpExp_le_of_lt _ k hx hlt hk
    have hg := grid_of_le m k (ulpExp ((m : ℚ) * 2 ^ k)) hq
    apply le_antisymm
    · calc f32 ((m : ℚ) * 2 ^ k) ≤ _ := f32_le_grid _ _ hg.le
        _ = _ := hg.symm
    · calc (m : ℚ) * 2 ^ k = _ := hg
        _ ≤ _ := grid_le_f32 _ _ hg.ge

/-- Rounding does not cross a binary32 value above a positive argument. -/
theorem f32_le_of_le_repr (x : ℚ) (m k : Int) (hx : 0 < x) (hm : m < 2 ^ 24) (hk : -149 ≤ k)
    (h : x ≤ (m : ℚ) * 2 ^ k) : f32 x ≤ (m : ℚ) * 2 ^ k := by
  have hr : (m : ℚ) * 2 ^ k < 2 ^ (24 + k) := by
    rw [zpow_add₀ (by norm_num)]
    have hm' : (m : ℚ) < 2 ^ (24 : Int) := by
      have h1 : (m : ℚ) < ((2 ^ 24 : Int) : ℚ) := by exact_mod_cast hm
      norm_num at h1 ⊢
      exact h1
    exact mul_lt_mul_of_pos_right hm' (by positivity)
  have hq := ulpExp_le_of_lt x k hx.ne' (by rw [abs_of_pos hx]; exact lt_of_le_of_lt h hr) hk
  have hg := grid_of_le m k (ulpExp x) hq
  calc f32 x ≤ _ := f32_le_grid x _ (hg ▸ h)
    _ = _ := hg.symm

theorem float_0_01_eq : float_0_01 = 5368709 / 536870912 := by
  unfold float_0_01
  rw [f32_eval (1 / 100) (-7) 10737418 (by norm_num [abs_of_pos]) (by norm_num [abs_of_pos])
    (by norm_num) (by norm_num [abs_lt])]
  norm_num

theorem truncToInt_of_nonneg {x : ℚ} (h : 0 ≤ x) : truncToInt x = ⌊x⌋ := by
  simp [truncToInt, h]

theorem truncToInt_of_neg {x : ℚ} (h : x < 0) : truncToInt x = ⌈x⌉ := by
  simp [truncToInt, not_le.mpr h]

theorem int_of_float_of_range {x : ℚ} (h0 : 0 ≤ x) (h1 : x < 2 ^ 31) :
    int_of_float x = ⌊x⌋ := by
  have hf0 : 0 ≤ ⌊x⌋ := Int.floor_nonneg.mpr h0
  have hf1 : ⌊x⌋ < 2 ^ 31 := by
    have h2 : ((⌊x⌋ : Int) : ℚ) < ((2 ^ 31 : Int) : ℚ) :=
      lt_of_le_of_lt (Int.floor_le x) (by push_cast; exact h1)
    exact_mod_cast h2
  unfold int_of_float
  rw [truncToInt_of_nonneg h0, if_pos ⟨by omega, hf1⟩]

theorem int_of_float_overflow {x : ℚ} (h : 2 ^ 31 ≤ x) : int_of_float x = -2 ^ 31 := by
  have h0 : (0 : ℚ) ≤ x := le_trans (by norm_num) h
  have hf : (2 ^ 31 : Int) ≤ ⌊x⌋ := Int.le_floor.mpr (by push_cast; exact h)
  unfold int_of_float
  rw [truncToInt_of_nonneg h0, if_neg (by omega)]

theorem clamp_bounds (z : Int) : 0 ≤ max (min z 54000) 0 ∧ max (min z 54000) 0 ≤ 54000 := by
  constructor
  · exact le_max_right _ _
  · exact max_le (min_le_right _ _) (by norm_num)

theorem brightness_value_cast (b : ℚ) :
    (brightness_value b : Int) = max (min (int_of_float (f32 (b * 54000))) 54000) 0 := by
  obtain ⟨h0, h1⟩ := clamp_bounds (int_of_float (f32 (b * 54000)))
  unfold brightness_value
  rw [Int.emod_eq_of_lt h0 (by omega)]
  exact Int.toNat_of_nonneg h0

theorem brightness_value_le (b : ℚ) : brightness_value b ≤ 54000 := by
  have h := brightness_value_cast b
  have h1 := (clamp_bounds (int_of_float (f32 (b * 54000)))).2
  omega

/-- The product is out of the range of `int`: raw `0` is encoded. -/
theorem brightness_value_overflow (b : ℚ) (h : 2 ^ 31 ≤ f32 (b * 54000)) :
    brightness_value b = 0 := by
  have hc := brightness_value_cast b
  rw [int_of_float_overflow h] at hc
  norm_num at hc
  exact hc

/-- The product is within `[0, 54001)`: its integer part is encoded. -/
theorem brightness_value_of_floor (b : ℚ) (h0 : 0 ≤ f32 (b * 54000))
    (h1 : f32 (b * 54000) < 54001) : (brightness_value b : Int) = ⌊f32 (b * 54000)⌋ := by
  have hc := brightness_value_cast b
  have hf0 : 0 ≤ ⌊f32 (b * 54000)⌋ := Int.floor_nonneg.mpr h0
  have hf1 : ⌊f32 (b * 54000)⌋ ≤ 54000 := by
    have h2 : ⌊f32 (b * 54000)⌋ < 54001 := Int.floor_lt.mpr (by push_cast; exact h1)
    omega
  rw [int_of_float_of_range h0 (lt_trans h1 (by norm_num)), min_eq_left hf1,
    max_eq_left hf0] at hc
  exact hc

/-- The product is within `[54000, 2^31)`: raw `54000` is encoded. -/
theorem brightness_value_of_ge (b : ℚ) (h0 : 54000 ≤ f32 (b * 54000))
    (h1 : f32 (b * 54000) < 2 ^ 31) : brightness_value b = 54000 := by
  have hc := brightness_value_cast b
  have hf : (54000 : Int) ≤ ⌊f32 (b * 54000)⌋ := Int.le_floor.mpr (by push_cast; exact h0)
  rw [int_of_float_of_range (le_trans (by norm_num) h0) h1, min_eq_right hf] at hc
  norm_num at hc
  exact_mod_cast hc

theorem report_value_set_report_data (v : Nat) (hv : v < 65536) :
    report_value (set_report_data v) = v := by
  have h1 : v &&& 255 = v % 256 := Nat.and_pow_two_sub_one_eq_mod v 8
  have h2 : (v / 256) &&& 255 = (v / 256) % 256 := Nat.and_pow_two_sub_one_eq_mod _ 8
  have h3 : v >>> 8 = v / 256 := by rw [Nat.shiftRight_eq_div_pow]
  have h4 : ∀ n : Nat, n <<< 8 = n * 256 := fun n => by rw [Nat.shiftLeft_eq]
  simp only [report_value, set_report_data, List.getD_cons_zero, List.getD_cons_succ, h3, h1, h2,
    h4]
  omega

theorem firstTargetRead_nil : ¬ FirstTargetRead [] := by
  rintro ⟨k, d, h, -⟩
  simp at h

theorem firstTargetRead_cons_none (rest : List (Option Descriptor)) :
    ¬ FirstTargetRead (none :: rest) := by
  rintro ⟨k, d, h, -, hb⟩
  cases k with
  | zero => simp at h
  | succ k =>
    obtain ⟨d', h', -⟩ := hb 0 (Nat.succ_pos k)
    simp at h'

theorem firstTargetRead_cons_target (d : Descriptor) (rest : List (Option Descriptor))
    (hd : isTarget d) : FirstTargetRead (some d :: rest) :=
  ⟨0, d, by simp, hd, fun j hj => absurd hj (Nat.not_lt_zero j)⟩

theorem firstTargetRead_cons_other (d : Descriptor) (rest : List (Option Descriptor))
    (hd : ¬ isTarget d) : FirstTargetRead (some d :: rest) ↔ FirstTargetRead rest := by
  constructor
  · rintro ⟨k, t, h, ht, hb⟩
    cases k with
    | zero =>
      simp at h
      exact absurd (h ▸ ht) hd
    | succ k =>
      refine ⟨k, t, by simpa using h, ht, fun j hj => ?_⟩
      simpa using hb (j + 1) (Nat.succ_lt_succ hj)
  · rintro ⟨k, t, h, ht, hb⟩
    refine ⟨k + 1, t, by simpa using h, ht, fun j hj => ?_⟩
    cases j with
    | zero => exact ⟨d, by simp, hd⟩
    | succ j => simpa using hb j (Nat.lt_of_succ_lt_succ hj)

theorem loop_some_iff (openErr : Int) (devs : List (Option Descriptor)) (i : Nat) (u : Usb) :
    (∃ h, (get_lg_ultrafine_loop openErr devs i u).2 = .ok (some h)) ↔
      FirstTargetRead devs ∧ openErr = 0 := by
  induction devs generalizing i u with
  | nil => simp [get_lg_ultrafine_loop, firstTargetRead_nil]
  | cons x rest ih =>
    cases x with
    | none => simp [get_lg_ultrafine_loop, firstTargetRead_cons_none]
    | some d =>
      by_cases hd : isTarget d
      · have hd' : d.idVendor = vendor_id ∧ d.idProduct = product_id := hd
        by_cases ho : openErr = 0
        · simp [get_lg_ultrafine_loop, hd', ho, firstTargetRead_cons_target d rest hd]
        · simp [get_lg_ultrafine_loop, hd', ho]
      · have hd' : ¬ (d.idVendor = vendor_id ∧ d.idProduct = product_id) := hd
        simp only [get_lg_ultrafine_loop, hd', if_false, firstTargetRead_cons_other d rest hd]
        exact ih _ _

theorem loop_frame (openErr : Int) (devs : List (Option Descriptor)) (i : Nat) (u : Usb) :
    (∃ extra, (get_lg_ultrafine_loop openErr devs i u).1.calls = u.calls ++ extra ∧
      ∀ c ∈ extra, isAcqCall c = true) ∧
    u.next ≤ (get_lg_ultrafine_loop openErr devs i u).1.next ∧
    (get_lg_ultrafine_loop openErr devs i u).1.next ≤ u.next + 1 ∧
    ∀ h, (get_lg_ultrafine_loop openErr devs i u).2 = .ok (some h) →
      h = u.next ∧ (get_lg_ultrafine_loop openErr devs i u).1.next = u.next + 1 := by
  induction devs generalizing i u with
  | nil =>
    refine ⟨⟨[.libusb_free_device_list], ?_, ?_⟩, ?_, ?_, ?_⟩ <;>
      simp [get_lg_ultrafine_loop, Usb.log, isAcqCall]
  | cons x rest ih =>
    cases x with
    | none =>
      refine ⟨⟨[.libusb_get_device_descriptor i, .libusb_free_device_list], ?_, ?_⟩, ?_, ?_, ?_⟩ <;>
        simp [get_lg_ultrafine_loop, Usb.log, isAcqCall]
    | some d =>
      by_cases hd : d.idVendor = vendor_id ∧ d.idProduct = product_id
      · by_cases ho : openErr = 0
        · refine ⟨⟨[.libusb_get_device_descriptor i, .libusb_open i (some u.next),
            .libusb_free_device_list], ?_, ?_⟩, ?_, ?_, ?_⟩ <;>
            simp [get_lg_ultrafine_loop, Usb.log, isAcqCall, hd, ho]
        · refine ⟨⟨[.libusb_get_device_descriptor i, .libusb_open i none,
            .libusb_free_device_list], ?_, ?_⟩, ?_, ?_, ?_⟩ <;>
            simp [get_lg_ultrafine_loop, Usb.log, isAcqCall, hd, ho]
      · obtain ⟨⟨extra, he, hc⟩, h1, h2, h3⟩ := ih (i + 1) (u.log (.libusb_get_device_descriptor i))
        simp only [get_lg_ultrafine_loop, hd, if_false]
        refine ⟨⟨.libusb_get_device_descriptor i :: extra, ?_, ?_⟩, h1, h2, h3⟩
        · rw [he]; simp [Usb.log]
        · simpa [isAcqCall] using hc

theorem loop_none_iff (openErr : Int) (devs : List (Option Descriptor)) (i : Nat) (u : Usb) :
    (get_lg_ultrafine_loop openErr devs i u).2 = .ok none ↔
      ∀ x ∈ devs, ∃ d, x = some d ∧ ¬ isTarget d := by
  induction devs generalizing i u with
  | nil => simp [get_lg_ultrafine_loop]
  | cons x rest ih =>
    cases x with
    | none => simp [get_lg_ultrafine_loop]
    | some d =>
      by_cases hd : d.idVendor = vendor_id ∧ d.idProduct = product_id
      · by_cases ho : openErr = 0
        · simp [get_lg_ultrafine_loop, hd, ho, isTarget]
        · simp [get_lg_ultrafine_loop, hd, ho, isTarget]
      · have hd' : ¬ isTarget d := hd
        simp only [get_lg_ultrafine_loop, hd, if_false, List.forall_mem_cons]
        rw [ih]
        simp [hd']

theorem loop_opens_none (openErr : Int) (devs : List (Option Descriptor)) (i : Nat) (u : Usb)
    (h : ∀ x ∈ devs, ∃ d, x = some d ∧ ¬ isTarget d) :
    opensOf (get_lg_ultrafine_loop openErr devs i u).1.calls = opensOf u.calls := by
  induction devs generalizing i u with
  | nil => simp [get_lg_ultrafine_loop, Usb.log, opensOf]
  | cons x rest ih =>
    obtain ⟨d, rfl, hd⟩ := h x (List.mem_cons_self _ _)
    have hd' : ¬ (d.idVendor = vendor_id ∧ d.idProduct = product_id) := hd
    simp only [get_lg_ultrafine_loop, hd', if_false]
    rw [ih _ _ (fun y hy => h y (List.mem_cons_of_mem _ hy))]
    simp [Usb.log, opensOf]

theorem loop_opens_first (openErr : Int) (devs : List (Option Descriptor)) (i : Nat) (u : Usb)
    (k : Nat) (d : Descriptor) (hk : devs[k]? = some (some d)) (hd : isTarget d)
    (hb : ∀ j : Nat, j < k → ∃ d' : Descriptor, devs[j]? = some (some d') ∧ ¬ isTarget d') :
    opensOf (get_lg_ultrafine_loop openErr devs i u).1.calls = opensOf u.calls ++ [i + k] := by
  induction devs generalizing i u k with
  | nil => simp at hk
  | cons x rest ih =>
    cases k with
    | zero =>
      simp at hk
      subst hk
      have hd' : d.idVendor = vendor_id ∧ d.idProduct = product_id := hd
      by_cases ho : openErr = 0 <;>
        simp [get_lg_ultrafine_loop, hd', ho, Usb.log, opensOf]
    | succ k =>
      obtain ⟨d0, h0, hn0⟩ := hb 0 (Nat.succ_pos k)
      simp at h0
      subst h0
      have hd' : ¬ (d0.idVendor = vendor_id ∧ d0.idProduct = product_id) := hn0
      simp only [get_lg_ultrafine_loop, hd', if_false]
      rw [ih (i + 1) _ k (by simpa using hk)
        (fun j hj => by simpa using hb (j + 1) (Nat.succ_lt_succ hj))]
      simp [Usb.log, opensOf]
      omega

/-! ## Lemmas on acquisition -/

theorem get_lg_ultrafine_frame (a : Acq) (u : Usb) :
    (∃ extra, (get_lg_ultrafine a u).1.calls = u.calls ++ .libusb_get_device_list :: extra ∧
      ∀ c ∈ extra, isAcqCall c = true) ∧
    u.next ≤ (get_lg_ultrafine a u).1.next ∧
    (get_lg_ultrafine a u).1.next ≤ u.next + 1 ∧
    ∀ h, (get_lg_ultrafine a u).2 = .ok (some h) →
      h = u.next ∧ (get_lg_ultrafine a u).1.next = u.next + 1 := by
  unfold get_lg_ultrafine
  cases hdl : a.deviceList with
  | none =>
    refine ⟨⟨[], ?_, ?_⟩, ?_, ?_, ?_⟩ <;> simp [Usb.log]
  | some devs =>
    obtain ⟨⟨extra, he, hc⟩, h1, h2, h3⟩ :=
      loop_frame a.openErr devs 0 (u.log .libusb_get_device_list)
    refine ⟨⟨extra, ?_, hc⟩, h1, h2, h3⟩
    simp only [he]
    simp [Usb.log]

theorem get_lg_ultrafine_some_iff (a : Acq) (u : Usb) :
    (∃ h, (get_lg_ultrafine a u).2 = .ok (some h)) ↔
      ∃ devs, a.deviceList = some devs ∧ FirstTargetRead devs ∧ a.openErr = 0 := by
  unfold get_lg_ultrafine
  cases hdl : a.deviceList with
  | none => simp
  | some devs => simp [loop_some_iff]

theorem init_lg_ultrafine_frame (a : Acq) (u : Usb) :
    (∃ extra, (init_lg_ultrafine a u).1.calls = u.calls ++ .libusb_get_device_list :: extra ∧
      ∀ c ∈ extra, isAcqCall c = true) ∧
    u.next ≤ (init_lg_ultrafine a u).1.next ∧
    (init_lg_ultrafine a u).1.next ≤ u.next + 1 ∧
    ∀ h, (init_lg_ultrafine a u).2 = .ok (some h) →
      h = u.next ∧ (init_lg_ultrafine a u).1.next = u.next + 1 := by
  obtain ⟨⟨extra, he, hc⟩, h1, h2, h3⟩ := get_lg_ultrafine_frame a u
  unfold init_lg_ultrafine
  rcases hg : get_lg_ultrafine a u with ⟨u1, (err | (_ | handle))⟩
  · rw [hg] at he h1 h2
    exact ⟨⟨extra, he, hc⟩, h1, h2, by simp⟩
  · rw [hg] at he h1 h2
    exact ⟨⟨extra, he, hc⟩, h1, h2, by simp⟩
  · rw [hg] at he h1 h2 h3
    obtain ⟨hh, hn⟩ := h3 handle rfl
    simp only at he h1 h2 hn
    by_cases hcl : a.claimErr = 0
    · refine ⟨⟨extra ++ [.libusb_set_auto_detach_kernel_driver handle 1,
        .libusb_claim_interface handle 1], ?_, ?_⟩, ?_, ?_, ?_⟩
      · simp [hcl, Usb.log, he]
      · intro c hmem
        rcases List.mem_append.mp hmem with hmem | hmem
        · exact hc c hmem
        · simp at hmem
          rcases hmem with rfl | rfl <;> rfl
      · simpa [hcl, Usb.log] using h1
      · simpa [hcl, Usb.log] using h2
      · simp [hcl, Usb.log, hn, hh]
    · refine ⟨⟨extra ++ [.libusb_set_auto_detach_kernel_driver handle 1,
        .libusb_claim_interface handle 1], ?_, ?_⟩, ?_, ?_, ?_⟩
      · simp [hcl, Usb.log, he]
      · intro c hmem
        rcases List.mem_append.mp hmem with hmem | hmem
        · exact hc c hmem
        · simp at hmem
          rcases hmem with rfl | rfl <;> rfl
      · simpa [hcl, Usb.log] using h1
      · simpa [hcl, Usb.log] using h2
      · simp [hcl, Usb.log]

theorem init_lg_ultrafine_some_iff (a : Acq) (u : Usb) :
    (∃ h, (init_lg_ultrafine a u).2 = .ok (some h)) ↔
      ∃ devs, a.deviceList = some devs ∧ FirstTargetRead devs ∧ a.openErr = 0 ∧
        a.claimErr = 0 := by
  have hg := get_lg_ultrafine_some_iff a u
  unfold init_lg_ultrafine
  rcases hgu : get_lg_ultrafine a u with ⟨u1, (err | (_ | handle))⟩
  · rw [hgu] at hg
    simp only [reduceCtorEq, exists_false, false_iff] at hg ⊢
    rintro ⟨devs, h1, h2, h3, -⟩
    exact hg ⟨devs, h1, h2, h3⟩
  · rw [hgu] at hg
    simp only [Except.ok.injEq, reduceCtorEq, exists_false, false_iff] at hg ⊢
    rintro ⟨devs, h1, h2, h3, -⟩
    exact hg ⟨devs, h1, h2, h3⟩
  · rw [hgu] at hg
    obtain ⟨devs, h1, h2, h3⟩ := hg.mp ⟨handle, rfl⟩
    by_cases hcl : a.claimErr = 0
    · simp only [hcl, ne_eq, not_true_eq_false, if_false]
      exact ⟨fun _ => ⟨devs, h1, h2, h3, trivial⟩, fun _ => ⟨handle, rfl⟩⟩
    · simp only [hcl, ne_eq, not_false_eq_true, if_true, reduceCtorEq, exists_false, false_iff]
      rintro ⟨_, _, _, _, h4⟩
      exact h4

theorem get_brightness_fst (a : Acq) (u : Usb) (h : Handle) :
    (get_brightness a u h).1 = u.log (getReportCall h) := by
  unfold get_brightness
  by_cases hb : a.getBytes < 0 <;> simp [hb] <;> rfl

theorem get_brightness_snd (a : Acq) (u : Usb) (h : Handle) :
    (get_brightness a u h).2 =
      if a.getBytes < 0 then
        .error (.runtime_error "Unable to get brightness: libusb_control_transfer error.")
      else .ok (decode_level (received 8 a.getPayload)) := by
  unfold get_brightness
  by_cases hb : a.getBytes < 0 <;> simp [hb]

theorem set_brightness_fst (e : Env) (u : Usb) (h : Handle) (b : ℚ) :
    (set_brightness e u h b).1 = u.log (setReportCall h (set_report_data (brightness_value b))) := by
  unfold set_brightness
  by_cases hb : e.setBytes < 0 <;> simp [hb] <;> rfl

theorem set_brightness_snd (e : Env) (u : Usb) (h : Handle) (b : ℚ) :
    (set_brightness e u h b).2 =
      if e.setBytes < 0 then
        .error (.runtime_error "Unable to set brightness: libusb_control_transfer error.")
      else .ok () := by
  unfold set_brightness
  by_cases hb : e.setBytes < 0 <;> simp [hb]

theorem released_calls (s : State) :
    (released s).calls = s.usb.calls ++ (s.handle.toList.map Call.libusb_close) ∧
    (released s).next = s.usb.next := by
  unfold released
  cases s.handle <;> simp [Usb.log]

/-- The three outcomes of `reinit_handle`, read off the result of
`init_lg_ultrafine` and of the GET_REPORT transfer. -/
theorem reinit_handle_cases (a : Acq) (s : State) :
    (((∀ h, (init_lg_ultrafine a (released s)).2 ≠ .ok (some h)) ∧
        reinit_handle a s =
          { handle := none
            brightness := s.brightness
            usb := (init_lg_ultrafine a (released s)).1 }) ∨
      (∃ h, (init_lg_ultrafine a (released s)).2 = .ok (some h) ∧ a.getBytes < 0 ∧
        reinit_handle a s =
          { handle := none
            brightness := s.brightness
            usb := Usb.log (init_lg_ultrafine a (released s)).1 (getReportCall h) }) ∨
      (∃ h, (init_lg_ultrafine a (released s)).2 = .ok (some h) ∧ 0 ≤ a.getBytes ∧
        reinit_handle a s =
          { handle := some h
            brightness := decode_level (received 8 a.getPayload)
            usb := Usb.log (init_lg_ultrafine a (released s)).1 (getReportCall h) })) := by
  have hrel : reinit_handle a s =
      match init_lg_ultrafine a (released s) with
      | (u1, .error _) => { handle := none, brightness := s.brightness, usb := u1 }
      | (u1, .ok none) => { handle := none, brightness := s.brightness, usb := u1 }
      | (u1, .ok (some handle)) =>
        match get_brightness a u1 handle with
        | (u2, .error _) => { handle := none, brightness := s.brightness, usb := u2 }
        | (u2, .ok b) => { handle := some handle, brightness := b, usb := u2 } := rfl
  rw [hrel]
  rcases hi : init_lg_ultrafine a (released s) with ⟨u1, (err | (_ | h))⟩
  · left; simp
  · left; simp
  · right
    have h1 := get_brightness_fst a u1 h
    have h2 := get_brightness_snd a u1 h
    rcases hg : get_brightness a u1 h with ⟨u2, (err | b)⟩
    · rw [hg] at h1 h2
      left
      by_cases hb : a.getBytes < 0
      · exact ⟨h, rfl, hb, by simp only at h1; simp [hg, h1]⟩
      · simp [hb] at h2
    · rw [hg] at h1 h2
      right
      by_cases hb : a.getBytes < 0
      · simp [hb] at h2
      · simp only [hb, if_false, Except.ok.injEq] at h2
        exact ⟨h, rfl, not_lt.mp hb, by simp only at h1; simp [hg, h1, h2]⟩

theorem reinit_handle_frame (a : Acq) (s : State) :
    ∃ extra, (reinit_handle a s).usb.calls =
        s.usb.calls ++ s.handle.toList.map Call.libusb_close ++
          Call.libusb_get_device_list :: extra ∧
      (∀ c ∈ extra, isAcqCall c = true) ∧
      s.usb.next ≤ (reinit_handle a s).usb.next ∧
      ∀ h, (reinit_handle a s).handle = some h →
        h = s.usb.next ∧ (reinit_handle a s).usb.next = s.usb.next + 1 := by
  obtain ⟨⟨extra, he, hc⟩, h1, -, h3⟩ := init_lg_ultrafine_frame a (released s)
  obtain ⟨hrc, hrn⟩ := released_calls s
  rw [hrc] at he
  rw [hrn] at h1 h3
  rcases reinit_handle_cases a s with ⟨-, hr⟩ | ⟨h, -, -, hr⟩ | ⟨h, hi, -, hr⟩
  · rw [hr]
    exact ⟨extra, he, hc, h1, by simp⟩
  · rw [hr]
    refine ⟨extra ++ [getReportCall h], ?_, ?_, h1, by simp⟩
    · simp [Usb.log, he]
    · intro c hmem
      rcases List.mem_append.mp hmem with hmem | hmem
      · exact hc c hmem
      · simp at hmem
        rw [hmem]; rfl
  · rw [hr]
    refine ⟨extra ++ [getReportCall h], ?_, ?_, h1, ?_⟩
    · simp [Usb.log, he]
    · intro c hmem
      rcases List.mem_append.mp hmem with hmem | hmem
      · exact hc c hmem
      · simp at hmem
        rw [hmem]; rfl
    · intro h' hh'
      simp only [Option.some.injEq] at hh'
      subst hh'
      simpa [Usb.log] using h3 h hi

theorem reinit_handle_active_iff (a : Acq) (s : State) :
    (∃ h, (reinit_handle a s).handle = some h) ↔ AcqSucceeds a := by
  have hi := init_lg_ultrafine_some_iff a (released s)
  rcases reinit_handle_cases a s with ⟨hn, hr⟩ | ⟨h, hih, hb, hr⟩ | ⟨h, hih, hb, hr⟩
  · rw [hr]
    simp only [reduceCtorEq, exists_false, false_iff]
    rintro ⟨devs, h1, h2, h3, h4, -⟩
    obtain ⟨h, hh⟩ := hi.mpr ⟨devs, h1, h2, h3, h4⟩
    exact hn h hh
  · rw [hr]
    simp only [reduceCtorEq, exists_false, false_iff]
    rintro ⟨devs, -, -, -, -, h5⟩
    omega
  · rw [hr]
    obtain ⟨devs, h1, h2, h3, h4⟩ := hi.mp ⟨h, hih⟩
    exact ⟨fun _ => ⟨devs, h1, h2, h3, h4, hb⟩, fun _ => ⟨h, rfl⟩⟩

theorem reinit_handle_of_succeeds (a : Acq) (s : State) (hs : AcqSucceeds a) :
    (reinit_handle a s).handle = some s.usb.next ∧
    (reinit_handle a s).brightness = decode_level (received 8 a.getPayload) ∧
    (reinit_handle a s).usb.calls.getLast? = some (getReportCall s.usb.next) := by
  obtain ⟨h, hh⟩ := (reinit_handle_active_iff a s).mpr hs
  obtain ⟨-, -, -, -, hfr⟩ := reinit_handle_frame a s
  obtain ⟨rfl, -⟩ := hfr h hh
  rcases reinit_handle_cases a s with ⟨-, hr⟩ | ⟨h, -, -, hr⟩ | ⟨h, -, -, hr⟩
  · rw [hr] at hh; simp at hh
  · rw [hr] at hh; simp at hh
  · rw [hr] at hh ⊢
    simp only [Option.some.injEq] at hh
    subst hh
    simp [Usb.log]

theorem decode_level_received (p : List Nat) :
    decode_level (received 8 p) =
      f32 ((((p.getD 0 0 % 256 : Nat) : ℚ) + 256 * ((p.getD 1 0 % 256 : Nat) : ℚ)) / 54000) := by
  have hr : received 8 p = [p.getD 0 0 % 256, p.getD 1 0 % 256, p.getD 2 0 % 256,
      p.getD 3 0 % 256, p.getD 4 0 % 256, p.getD 5 0 % 256, p.getD 6 0 % 256,
      p.getD 7 0 % 256] := rfl
  have h4 : ∀ n : Nat, n <<< 8 = n * 256 := fun n => by rw [Nat.shiftLeft_eq]
  have hv : report_value (received 8 p) = p.getD 0 0 % 256 + 256 * (p.getD 1 0 % 256) := by
    rw [hr]
    simp only [report_value, List.getD_cons_zero, List.getD_cons_succ, h4]
    omega
  unfold decode_level
  rw [hv]
  push_cast
  rfl

/-! ## Lemmas on `WindowProc` -/

theorem set_brightness_ok (e : Env) (u : Usb) (h : Handle) (b : ℚ) (hok : 0 ≤ e.setBytes) :
    set_brightness e u h b =
      (u.log (setReportCall h (set_report_data (brightness_value b))), .ok ()) := by
  have h1 := set_brightness_fst e u h b
  have h2 := set_brightness_snd e u h b
  rw [if_neg (not_lt.mpr hok)] at h2
  exact Prod.ext h1 h2

theorem set_brightness_fail (e : Env) (u : Usb) (h : Handle) (b : ℚ) (hf : e.setBytes < 0) :
    set_brightness e u h b =
      (u.log (setReportCall h (set_report_data (brightness_value b))),
        .error (.runtime_error "Unable to set brightness: libusb_control_transfer error.")) := by
  have h1 := set_brightness_fst e u h b
  have h2 := set_brightness_snd e u h b
  rw [if_pos hf] at h2
  exact Prod.ext h1 h2

theorem WindowProc_up_ok (e : Env) (s : State) (h : Handle) (hs : s.handle = some h)
    (hok : 0 ≤ e.setBytes) :
    WindowProc e 1025 s =
      { handle := some h
        brightness := f32 (s.brightness + float_0_01)
        usb := s.usb.log (setReportCall h
          (set_report_data (brightness_value (f32 (s.brightness + float_0_01))))) } := by
  simp [WindowProc, WM_DESTROY, hs, set_brightness_ok e _ h _ hok]

theorem WindowProc_down_ok (e : Env) (s : State) (h : Handle) (hs : s.handle = some h)
    (hok : 0 ≤ e.setBytes) :
    WindowProc e 1024 s =
      { handle := some h
        brightness := f32 (s.brightness - float_0_01)
        usb := s.usb.log (setReportCall h
          (set_report_data (brightness_value (f32 (s.brightness - float_0_01))))) } := by
  simp [WindowProc, WM_DESTROY, hs, set_brightness_ok e _ h _ hok]

theorem WindowProc_up_fail (e : Env) (s : State) (h : Handle) (hs : s.handle = some h)
    (hf : e.setBytes < 0) :
    WindowProc e 1025 s =
      reinit_handle e.acq
        { handle := some h
          brightness := f32 (s.brightness + float_0_01)
          usb := s.usb.log (setReportCall h
            (set_report_data (brightness_value (f32 (s.brightness + float_0_01))))) } := by
  simp [WindowProc, WM_DESTROY, hs, set_brightness_fail e _ h _ hf]

theorem WindowProc_down_fail (e : Env) (s : State) (h : Handle) (hs : s.handle = some h)
    (hf : e.setBytes < 0) :
    WindowProc e 1024 s =
      reinit_handle e.acq
        { handle := some h
          brightness := f32 (s.brightness - float_0_01)
          usb := s.usb.log (setReportCall h
            (set_report_data (brightness_value (f32 (s.brightness - float_0_01))))) } := by
  simp [WindowProc, WM_DESTROY, hs, set_brightness_fail e _ h _ hf]

theorem WindowProc_no_handle (e : Env) (uMsg : Nat) (s : State) (hs : s.handle = none)
    (hm : uMsg ≠ WM_DEVICECHANGE) : WindowProc e uMsg s = s := by
  unfold WindowProc
  split_ifs <;> simp [hs]

theorem set_report_data_eq (v : Nat) (hv : v ≤ 54000) :
    set_report_data v = [v % 256, v / 256, 0, 0, 0, 0] := by
  have h1 : v &&& 255 = v % 256 := Nat.and_pow_two_sub_one_eq_mod v 8
  have h2 : (v / 256) &&& 255 = (v / 256) % 256 := Nat.and_pow_two_sub_one_eq_mod _ 8
  have h3 : v >>> 8 = v / 256 := by rw [Nat.shiftRight_eq_div_pow]
  simp only [set_report_data, h3, h1, h2]
  have h5 : v / 256 % 256 % 256 = v / 256 := by omega
  have h6 : v % 256 % 256 = v % 256 := by omega
  rw [h5, h6]

/-! ## Lemmas on the call log -/

theorem closesOf_append (l1 l2 : List Call) :
    closesOf (l1 ++ l2) = closesOf l1 ++ closesOf l2 := by
  simp [closesOf, List.filterMap_append]

theorem closesOf_acq (l : List Call) (h : ∀ c ∈ l, isAcqCall c = true) : closesOf l = [] := by
  induction l with
  | nil => rfl
  | cons c rest ih =>
    have hc := h c (List.mem_cons_self _ _)
    have hr := ih (fun x hx => h x (List.mem_cons_of_mem _ hx))
    cases c <;> simp_all [closesOf, isAcqCall]

theorem closesOf_map_close (l : List Handle) : closesOf (l.map Call.libusb_close) = l := by
  induction l with
  | nil => rfl
  | cons h rest ih =>
    simp only [closesOf, List.map_cons, List.filterMap_cons] at ih ⊢
    rw [ih]

theorem reinit_handle_closes (a : Acq) (s : State) :
    closesOf (reinit_handle a s).usb.calls = closesOf s.usb.calls ++ s.handle.toList := by
  obtain ⟨extra, he, hc, -⟩ := reinit_handle_frame a s
  rw [he, closesOf_append, closesOf_append, closesOf_map_close]
  have : closesOf (Call.libusb_get_device_list :: extra) = [] :=
    closesOf_acq _ (fun c hmem => by
      rcases List.mem_cons.mp hmem with rfl | hmem
      · rfl
      · exact hc c hmem)
  rw [this, List.append_nil]

theorem reinit_handle_sentInRange (a : Acq) (s : State) (h : SentInRange s.usb.calls) :
    SentInRange (reinit_handle a s).usb.calls := by
  obtain ⟨extra, he, hc, -⟩ := reinit_handle_frame a s
  intro h' data hmem
  rw [he] at hmem
  simp only [List.mem_append, List.mem_map, List.mem_cons] at hmem
  rcases hmem with (hmem | ⟨x, -, hx⟩) | hx | hmem
  · exact h h' data hmem
  · exact absurd hx (by simp [setReportCall])
  · exact absurd hx (by simp [setReportCall])
  · have := hc _ hmem
    simp [setReportCall, isAcqCall, HID_GET_REPORT] at this

theorem log_setReport_sentInRange (u : Usb) (h : Handle) (b : ℚ) (hu : SentInRange u.calls) :
    SentInRange (u.log (setReportCall h (set_report_data (brightness_value b)))).calls := by
  intro h' data hmem
  simp only [Usb.log, List.mem_append, List.mem_singleton] at hmem
  rcases hmem with hmem | hmem
  · exact hu h' data hmem
  · simp only [setReportCall, Call.libusb_control_transfer.injEq, true_and, and_true] at hmem
    rw [hmem.2, report_value_set_report_data _ (by have := brightness_value_le b; omega)]
    exact brightness_value_le b

/-- The four shapes of a `WindowProc` step. -/
theorem WindowProc_cases (e : Env) (uMsg : Nat) (s : State) :
    WindowProc e uMsg s = s ∨
    WindowProc e uMsg s = reinit_handle e.acq s ∨
    ∃ h b, s.handle = some h ∧
      (WindowProc e uMsg s =
          { handle := some h
            brightness := b
            usb := s.usb.log (setReportCall h (set_report_data (brightness_value b))) } ∨
        WindowProc e uMsg s = reinit_handle e.acq
          { handle := some h
            brightness := b
            usb := s.usb.log (setReportCall h (set_report_data (brightness_value b))) }) := by
  by_cases h1 : uMsg = 1024
  · subst h1
    cases hs : s.handle with
    | none => exact Or.inl (WindowProc_no_handle e _ s hs (by decide))
    | some h =>
      refine Or.inr (Or.inr ⟨h, f32 (s.brightness - float_0_01), rfl, ?_⟩)
      by_cases hb : e.setBytes < 0
      · exact Or.inr (WindowProc_down_fail e s h hs hb)
      · exact Or.inl (WindowProc_down_ok e s h hs (not_lt.mp hb))
  · by_cases h2 : uMsg = 1025
    · subst h2
      cases hs : s.handle with
      | none => exact Or.inl (WindowProc_no_handle e _ s hs (by decide))
      | some h =>
        refine Or.inr (Or.inr ⟨h, f32 (s.brightness + float_0_01), rfl, ?_⟩)
        by_cases hb : e.setBytes < 0
        · exact Or.inr (WindowProc_up_fail e s h hs hb)
        · exact Or.inl (WindowProc_up_ok e s h hs (not_lt.mp hb))
    · by_cases h3 : uMsg = WM_DEVICECHANGE
      · subst h3
        exact Or.inr (Or.inl (by simp [WindowProc, WM_DESTROY, WM_DEVICECHANGE]))
      · left
        unfold WindowProc
        simp [h1, h2, h3]

theorem WindowProc_sentInRange (e : Env) (uMsg : Nat) (s : State) (h : SentInRange s.usb.calls) :
    SentInRange (WindowProc e uMsg s).usb.calls := by
  rcases WindowProc_cases e uMsg s with hw | hw | ⟨h', b, -, hw | hw⟩
  · rw [hw]; exact h
  · rw [hw]; exact reinit_handle_sentInRange _ _ h
  · rw [hw]; exact log_setReport_sentInRange _ _ _ h
  · rw [hw]
    exact reinit_handle_sentInRange _ _ (log_setReport_sentInRange _ _ _ h)

theorem dispatch_sentInRange (msgs : List (Env × Nat)) (s : State)
    (h : SentInRange s.usb.calls) : SentInRange (dispatch s msgs).usb.calls := by
  induction msgs generalizing s with
  | nil => exact h
  | cons m rest ih => exact ih _ (WindowProc_sentInRange m.1 m.2 s h)

theorem reinit_handle_handlesOk (a : Acq) (s : State) (h : HandlesOk s) :
    HandlesOk (reinit_handle a s) := by
  obtain ⟨hnd, hlt, hheld⟩ := h
  obtain ⟨-, -, -, hnext, hnew⟩ := reinit_handle_frame a s
  have hcl := reinit_handle_closes a s
  have hlt' : ∀ h ∈ closesOf (reinit_handle a s).usb.calls, h < s.usb.next := by
    intro h hmem
    rw [hcl, List.mem_append] at hmem
    rcases hmem with hmem | hmem
    · exact hlt h hmem
    · exact (hheld h (by simpa using hmem)).1
  refine ⟨?_, fun h hmem => lt_of_lt_of_le (hlt' h hmem) hnext, fun h hh => ?_⟩
  · rw [hcl]
    cases hs : s.handle with
    | none => simpa using hnd
    | some h0 =>
      simp only [Option.toList_some]
      exact List.nodup_append.mpr ⟨hnd, List.nodup_singleton h0, by
        intro x hx hx'
        simp only [List.mem_singleton] at hx'
        subst hx'
        exact (hheld x hs).2 hx⟩
  · obtain ⟨rfl, hn⟩ := hnew h hh
    exact ⟨by rw [hn]; exact Nat.lt_succ_self _, fun hmem => lt_irrefl _ (hlt' _ hmem)⟩

theorem log_setReport_handlesOk (s : State) (h : Handle) (b b' : ℚ) (hs : s.handle = some h)
    (hok : HandlesOk s) :
    HandlesOk
      { handle := some h
        brightness := b'
        usb := s.usb.log (setReportCall h (set_report_data (brightness_value b))) } := by
  obtain ⟨hnd, hlt, hheld⟩ := hok
  have hc : closesOf (s.usb.log (setReportCall h (set_report_data (brightness_value b)))).calls =
      closesOf s.usb.calls := by
    simp [Usb.log, closesOf, setReportCall]
  refine ⟨by rw [hc]; exact hnd, fun x hx => ?_, fun x hx => ?_⟩
  · rw [hc] at hx
    exact hlt x hx
  · rw [hc]
    simp only [Option.some.injEq] at hx
    subst hx
    exact hheld _ hs

theorem WindowProc_handlesOk (e : Env) (uMsg : Nat) (s : State) (h : HandlesOk s) :
    HandlesOk (WindowProc e uMsg s) := by
  rcases WindowProc_cases e uMsg s with hw | hw | ⟨h', b, hs, hw | hw⟩
  · rw [hw]; exact h
  · rw [hw]; exact reinit_handle_handlesOk _ _ h
  · rw [hw]; exact log_setReport_handlesOk s h' b b hs h
  · rw [hw]
    exact reinit_handle_handlesOk _ _ (log_setReport_handlesOk s h' b b hs h)

theorem dispatch_handlesOk (msgs : List (Env × Nat)) (s : State) (h : HandlesOk s) :
    HandlesOk (dispatch s msgs) := by
  induction msgs generalizing s with
  | nil => exact h
  | cons m rest ih => exact ih _ (WindowProc_handlesOk m.1 m.2 s h)

theorem initial_handlesOk : HandlesOk initial := by
  refine ⟨by simp [initial, closesOf], by simp [initial, closesOf], by simp [initial]⟩

/-! ## Lemmas on the round trip -/

theorem f32_half : f32 (1 / 2) = 1 / 2 := by
  have h := f32_of_repr 1 (-1) (by norm_num) (by norm_num)
  norm_num at h ⊢
  exact h

theorem f32_raw_27000 : f32 (27000 / 54000) = 1 / 2 := by
  have h : (27000 / 54000 : ℚ) = 1 / 2 := by norm_num
  rw [h, f32_half]

/-- The level decoded from raw `1`. -/
theorem f32_raw_one : f32 (1 / 54000) = 10180663 / 549755813888 := by
  rw [f32_eval (1 / 54000) (-16) 10180663 (by norm_num [abs_of_pos])
    (by norm_num [abs_of_pos]) (by norm_num) (by norm_num [abs_lt])]
  norm_num

/-- The level decoded from raw `53946`, which is also `0.999f`. -/
theorem f32_raw_53946 : f32 (53946 / 54000) = 16760439 / 16777216 := by
  rw [f32_eval (53946 / 54000) (-1) 16760439 (by norm_num [abs_of_pos])
    (by norm_num [abs_of_pos]) (by norm_num) (by norm_num [abs_lt])]
  norm_num

theorem f32_0_999 : f32 (999 / 1000) = 16760439 / 16777216 := by
  have h : (999 / 1000 : ℚ) = 53946 / 54000 := by norm_num
  rw [h, f32_raw_53946]

theorem f32_0_51 : f32 (51 / 100) = 2139095 / 4194304 := by
  rw [f32_eval (51 / 100) (-1) 8556380 (by norm_num [abs_of_pos])
    (by norm_num [abs_of_pos]) (by norm_num) (by norm_num [abs_lt])]
  norm_num

/-- An increase from `0.5f`: the sum is `0.51f` and raw `27540` is encoded. -/
theorem up_from_half :
    f32 (1 / 2 + float_0_01) = 2139095 / 4194304 ∧
    brightness_value (2139095 / 4194304) = 27540 := by
  have hs : f32 (1 / 2 + float_0_01) = 2139095 / 4194304 := by
    rw [float_0_01_eq, f32_eval (1 / 2 + 5368709 / 536870912) (-1) 8556380
      (by norm_num [abs_of_pos]) (by norm_num [abs_of_pos]) (by norm_num)
      (by norm_num [abs_lt])]
    norm_num
  have hp : f32 (2139095 / 4194304 * 54000) = 27540 := by
    rw [f32_eval (2139095 / 4194304 * 54000) 14 14100480 (by norm_num [abs_of_pos])
      (by norm_num [abs_of_pos]) (by norm_num) (by norm_num [abs_lt])]
    norm_num
  refine ⟨hs, ?_⟩
  have h := brightness_value_of_floor (2139095 / 4194304) (by rw [hp]; norm_num)
    (by rw [hp]; norm_num)
  rw [hp] at h
  have hfl : ⌊(27540 : ℚ)⌋ = 27540 := by
    rw [Int.floor_eq_iff]; norm_num
  rw [hfl] at h
  exact_mod_cast h

/-- An increase from the level decoded from raw `1`: raw `541` is encoded. -/
theorem up_from_raw_one :
    f32 (10180663 / 549755813888 + float_0_01) = 5378651 / 536870912 ∧
    brightness_value (5378651 / 536870912) = 541 := by
  have hs : f32 (10180663 / 549755813888 + float_0_01) = 5378651 / 536870912 := by
    rw [float_0_01_eq, f32_eval (10180663 / 549755813888 + 5368709 / 536870912) (-7) 10757302
      (by norm_num [abs_of_pos]) (by norm_num [abs_of_pos]) (by norm_num)
      (by norm_num [abs_lt])]
    norm_num
  have hp : f32 (5378651 / 536870912 * 54000) = 541 := by
    rw [f32_eval (5378651 / 536870912 * 54000) 9 8863744 (by norm_num [abs_of_pos])
      (by norm_num [abs_of_pos]) (by norm_num) (by norm_num [abs_lt])]
    norm_num
  refine ⟨hs, ?_⟩
  have h := brightness_value_of_floor (5378651 / 536870912) (by rw [hp]; norm_num)
    (by rw [hp]; norm_num)
  rw [hp] at h
  have hfl : ⌊(541 : ℚ)⌋ = 541 := by
    rw [Int.floor_eq_iff]; norm_num
  rw [hfl] at h
  exact_mod_cast h

/-- An increase from `0.999f`: the sum is above `1` and raw `54000` is encoded. -/
theorem up_from_near_top :
    f32 (16760439 / 16777216 + float_0_01) = 4232053 / 4194304 ∧
    brightness_value (4232053 / 4194304) = 54000 := by
  have hs : f32 (16760439 / 16777216 + float_0_01) = 4232053 / 4194304 := by
    rw [float_0_01_eq, f32_eval (16760439 / 16777216 + 5368709 / 536870912) 0 8464106
      (by norm_num [abs_of_pos]) (by norm_num [abs_of_pos]) (by norm_num)
      (by norm_num [abs_lt])]
    norm_num
  have hp : f32 (4232053 / 4194304 * 54000) = 13948417 / 256 := by
    rw [f32_eval (4232053 / 4194304 * 54000) 15 13948417 (by norm_num [abs_of_pos])
      (by norm_num [abs_of_pos]) (by norm_num) (by norm_num [abs_lt])]
    norm_num
  exact ⟨hs, brightness_value_of_ge _ (by rw [hp]; norm_num) (by rw [hp]; norm_num)⟩

theorem brightness_value_in_range (b : ℚ)
    (h : -2 ^ 31 ≤ truncToInt (f32 (b * 54000)) ∧ truncToInt (f32 (b * 54000)) < 2 ^ 31) :
    (brightness_value b : Int) = max (min (truncToInt (f32 (b * 54000))) 54000) 0 := by
  rw [brightness_value_cast]
  unfold int_of_float
  rw [if_pos h]

/-! ## The report codec: clamping, round trip, truncation -/

/-- C1 fails on the code: the clamp is applied after the conversion to `int`.
At level `50000.0f` the `float` product is `2.7e9`, outside the range of `int`;
the conversion gives `INT_MIN` and raw `0` is encoded, not `54000`.  The same
happens from level `39768.21484375` on, whose product rounds to `2^31`; the
`float` just below it, `39768.2109375`, still encodes `54000`. -/
theorem C1_clamp_fails_beyond_int_range :
    (1 : ℚ) < 50000 ∧ f32 (50000 * 54000) = 2700000000 ∧ brightness_value 50000 = 0 ∧
    f32 (10180663 / 256 * 54000) = 2 ^ 31 ∧ brightness_value (10180663 / 256) = 0 ∧
    brightness_value (10180662 / 256) = 54000 := by
  have h1 : f32 (50000 * 54000) = 2700000000 := by
    have h := f32_of_repr 10546875 8 (by norm_num) (by norm_num)
    norm_num at h ⊢
    exact h
  have h2 : f32 (10180663 / 256 * 54000) = 2 ^ 31 := by
    rw [f32_eval (10180663 / 256 * 54000) 30 16777216 (by norm_num [abs_of_pos])
      (by norm_num [abs_of_pos]) (by norm_num) (by norm_num [abs_lt])]
    norm_num
  have h3 : f32 (10180662 / 256 * 54000) = 2147483392 := by
    rw [f32_eval (10180662 / 256 * 54000) 30 16777214 (by norm_num [abs_of_pos])
      (by norm_num [abs_of_pos]) (by norm_num) (by norm_num [abs_lt])]
    norm_num
  refine ⟨by norm_num, h1, brightness_value_overflow _ ?_, h2,
    brightness_value_overflow _ (le_of_eq h2.symm), brightness_value_of_ge _ ?_ ?_⟩
  · rw [h1]; norm_num
  · rw [h3]; norm_num
  · rw [h3]; norm_num

/-- C3, as stated, fails: the level `1/65536` is a `float` in `[0, 1]`, its
product with 54000 is the `float` `3375/4096`, whose nearest integer is `1`,
and `set_brightness` encodes `0`. -/
theorem C3_rounding_counterexample :
    (0 : ℚ) ≤ 1 / 65536 ∧ (1 / 65536 : ℚ) ≤ 1 ∧ f32 (1 / 65536) = 1 / 65536 ∧
    f32 (1 / 65536 * 54000) = 3375 / 4096 ∧
    round (f32 (1 / 65536 * 54000)) = 1 ∧ round ((1 / 65536 : ℚ) * 54000) = 1 ∧
    brightness_value (1 / 65536) = 0 := by
  have hl : f32 (1 / 65536) = 1 / 65536 := by
    have h := f32_of_repr 1 (-16) (by norm_num) (by norm_num)
    norm_num at h ⊢
    exact h
  have hp : f32 (1 / 65536 * 54000) = 3375 / 4096 := by
    have h := f32_of_repr 3375 (-12) (by norm_num) (by norm_num)
    norm_num at h ⊢
    exact h
  have hr : round (3375 / 4096 : ℚ) = 1 := by
    rw [round_eq, Int.floor_eq_iff]; norm_num
  refine ⟨by norm_num, by norm_num, hl, hp, by rw [hp]; exact hr, ?_, ?_⟩
  · have hx : (1 / 65536 : ℚ) * 54000 = 3375 / 4096 := by norm_num
    rw [hx]; exact hr
  · have h := brightness_value_of_floor (1 / 65536) (by rw [hp]; norm_num) (by rw [hp]; norm_num)
    rw [hp] at h
    have hfl : ⌊(3375 / 4096 : ℚ)⌋ = 0 := by
      rw [Int.floor_eq_iff]; norm_num
    rw [hfl] at h
    exact_mod_cast h

/-- C3, amended: for every level in `[0, 1]` the raw value that `set_brightness`
encodes is the truncation of the `float` product `level * 54000`: the greatest
integer not above it, not the nearest one. -/
theorem C3_truncation (level : ℚ) (h0 : 0 ≤ level) (h1 : level ≤ 1) :
    (brightness_value level : Int) = ⌊f32 (level * 54000)⌋ := by
  have hx0 : (0 : ℚ) ≤ level * 54000 := by positivity
  have hx1 : level * 54000 ≤ 54000 := by linarith
  have hp1 : f32 (level * 54000) ≤ 54000 := by
    rcases eq_or_lt_of_le hx0 with hz | hpos
    · rw [← hz, f32_zero]; norm_num
    · have h := f32_le_of_le_repr (level * 54000) 54000 0 hpos (by norm_num) (by norm_num)
        (by norm_num; exact h1)
      norm_num at h
      exact h
  exact brightness_value_of_floor level (f32_nonneg _ hx0) (lt_of_le_of_lt hp1 (by norm_num))

/-- Witness of C3 amended, at the level `1/65536`. -/
theorem C3_truncation_witness :
    (brightness_value (1 / 65536) : Int) = ⌊f32 (1 / 65536 * 54000)⌋ :=
  C3_truncation (1 / 65536) (by norm_num) (by norm_num)

/-! ## Brightness commands -/

/-- C5, as stated, fails: in the active session whose brightness is the level
decoded from raw `1`, an increase whose transfer succeeds sends raw `541`
(bytes `0x1D 0x02`), while the clamped raw value of `b + 0.01` is `540`; and the
brightness stored is the `float` sum, not `b + 0.01`. -/
theorem C5_step_and_wire_counterexample :
    decode_level [1, 0, 0, 0, 0, 0, 0, 0] = activeRawOne.brightness ∧
    (WindowProc envOk 1025 activeRawOne).usb.calls =
      [Call.libusb_control_transfer 0 0x21 0x09 0x0300 1 [0x1D, 0x02, 0, 0, 0, 0] 6 0] ∧
    report_value [0x1D, 0x02, 0, 0, 0, 0] = 541 ∧
    claimedRaw (activeRawOne.brightness + 1 / 100) = 540 ∧
    (WindowProc envOk 1025 activeRawOne).brightness = 5378651 / 536870912 ∧
    (WindowProc envOk 1025 activeRawOne).brightness ≠ activeRawOne.brightness + 1 / 100 := by
  have hb : activeRawOne.brightness = 10180663 / 549755813888 := rfl
  obtain ⟨hs, hv⟩ := up_from_raw_one
  have hw := WindowProc_up_ok envOk activeRawOne 0 rfl (by decide)
  rw [hb, hs, hv] at hw
  refine ⟨?_, ?_, by decide, ?_, ?_, ?_⟩
  · have hr : report_value [1, 0, 0, 0, 0, 0, 0, 0] = 1 := by decide
    unfold decode_level
    rw [hr, hb]
    exact_mod_cast f32_raw_one
  · rw [hw, set_report_data_eq 541 (by norm_num)]
    rfl
  · rw [hb]
    unfold claimedRaw
    have hx : (0 : ℚ) ≤ (10180663 / 549755813888 + 1 / 100) * 54000 := by norm_num
    have hfl : ⌊((10180663 / 549755813888 + 1 / 100) * 54000 : ℚ)⌋ = 540 := by
      rw [Int.floor_eq_iff]; norm_num
    rw [truncToInt_of_nonneg hx, hfl]
    decide
  · rw [hw]
  · rw [hw, hb]
    norm_num

/-- C5, amended: in an active session with brightness `b`, an increase (resp.
decrease) command whose transfer succeeds makes exactly one libusb call, the
SET_REPORT control transfer (request `0x09`, value `0x0300`, index `1`, 6 bytes);
it stores the `float` sum `b + 0.01f` (resp. difference `b - 0.01f`) as the new
brightness and keeps the handle; bytes 0 and 1 of the buffer are the
little-endian raw value encoded for the new brightness and bytes 2 to 5 are
zero; whenever the `float` product of the new brightness with 54000 is in the
range of `int`, that raw value is the truncated product clamped to
`[0, 54000]`. -/
theorem C5_step_and_wire (e : Env) (s : State) (h : Handle) (hs : s.handle = some h)
    (hok : 0 ≤ e.setBytes) :
    ((WindowProc e 1025 s).usb.calls = s.usb.calls ++
        [Call.libusb_control_transfer h 0x21 0x09 0x0300 1
          [brightness_value (f32 (s.brightness + float_0_01)) % 256,
            brightness_value (f32 (s.brightness + float_0_01)) / 256, 0, 0, 0, 0] 6 0] ∧
      (-2 ^ 31 ≤ truncToInt (f32 (f32 (s.brightness + float_0_01) * 54000)) ∧
          truncToInt (f32 (f32 (s.brightness + float_0_01) * 54000)) < 2 ^ 31 →
        (brightness_value (f32 (s.brightness + float_0_01)) : Int) =
          max (min (truncToInt (f32 (f32 (s.brightness + float_0_01) * 54000))) 54000) 0) ∧
      (WindowProc e 1025 s).brightness = f32 (s.brightness + float_0_01) ∧
      (WindowProc e 1025 s).handle = some h) ∧
    ((WindowProc e 1024 s).usb.calls = s.usb.calls ++
        [Call.libusb_control_transfer h 0x21 0x09 0x0300 1
          [brightness_value (f32 (s.brightness - float_0_01)) % 256,
            brightness_value (f32 (s.brightness - float_0_01)) / 256, 0, 0, 0, 0] 6 0] ∧
      (-2 ^ 31 ≤ truncToInt (f32 (f32 (s.brightness - float_0_01) * 54000)) ∧
          truncToInt (f32 (f32 (s.brightness - float_0_01) * 54000)) < 2 ^ 31 →
        (brightness_value (f32 (s.brightness - float_0_01)) : Int) =
          max (min (truncToInt (f32 (f32 (s.brightness - float_0_01) * 54000))) 54000) 0) ∧
      (WindowProc e 1024 s).brightness = f32 (s.brightness - float_0_01) ∧
      (WindowProc e 1024 s).handle = some h) := by
  refine ⟨⟨?_, brightness_value_in_range _, ?_, ?_⟩, ⟨?_, brightness_value_in_range _, ?_, ?_⟩⟩
  · rw [WindowProc_up_ok e s h hs hok, set_report_data_eq _ (brightness_value_le _)]
    rfl
  · rw [WindowProc_up_ok e s h hs hok]
  · rw [WindowProc_up_ok e s h hs hok]
  · rw [WindowProc_down_ok e s h hs hok, set_report_data_eq _ (brightness_value_le _)]
    rfl
  · rw [WindowProc_down_ok e s h hs hok]
  · rw [WindowProc_down_ok e s h hs hok]

/-- Witness of C5 amended (Scenario B): from brightness `0.5f` an increase sends
raw `27540`, bytes `0x94 0x6B 0 0 0 0`, and stores `0.51f`. -/
theorem C5_step_and_wire_witness :
    (WindowProc envOk 1025 activeHalf).usb.calls =
      [Call.libusb_control_transfer 0 0x21 0x09 0x0300 1 [0x94, 0x6B, 0, 0, 0, 0] 6 0] ∧
    report_value [0x94, 0x6B, 0, 0, 0, 0] = 27540 ∧
    (WindowProc envOk 1025 activeHalf).brightness = f32 (51 / 100) := by
  obtain ⟨⟨h1, -, h3, -⟩, -⟩ := C5_step_and_wire envOk activeHalf 0 rfl (by decide)
  have hb : activeHalf.brightness = 1 / 2 := rfl
  obtain ⟨hs, hv⟩ := up_from_half
  refine ⟨?_, by decide, ?_⟩
  · rw [h1, hb, hs, hv]
    rfl
  · rw [h3, hb, hs, f32_0_51]

/-! ## Acquisition -/

theorem acqPresent_succeeds (payload : List Nat) : AcqSucceeds (acqPresent payload) := by
  refine ⟨[some ultrafine5k, some ultrafine], rfl, ⟨1, ultrafine, rfl, by decide, ?_⟩, rfl, rfl,
    by simp [acqPresent]⟩
  intro j hj
  have hj0 : j = 0 := by omega
  subst hj0
  exact ⟨ultrafine5k, rfl, by decide⟩

theorem enumerable_of_succeeds (a : Acq) (h : AcqSucceeds a) : Enumerable a := by
  obtain ⟨devs, h1, ⟨k, d, hk, hd, -⟩, -⟩ := h
  exact ⟨devs, h1, d, List.getElem?_mem hk, hd⟩

/-- C7 (Scenario C): in an active session on handle `h`, when the SET_REPORT
transfer of an increase or decrease command fails (negative byte count), the
handler runs `reinit_handle` on the state with the modified brightness: the next
libusb calls are `libusb_close h` and `libusb_get_device_list`; if acquisition
succeeds the final state is Active on the new handle with the brightness decoded
from the report just read, whatever the brightness in memory was; if no target
device is enumerable the final state has no handle.  When the transfer
succeeds the only libusb call is the transfer: no close, no acquisition. -/
theorem C7_failure_recovery (e : Env) (s : State) (h : Handle) (hs : s.handle = some h)
    (uMsg : Nat) (hm : uMsg = 1024 ∨ uMsg = 1025) :
    (e.setBytes < 0 →
      (∃ rest, (WindowProc e uMsg s).usb.calls =
        s.usb.calls ++
          [setReportCall h (set_report_data (brightness_value (stepped uMsg s.brightness))),
            Call.libusb_close h, Call.libusb_get_device_list] ++ rest ∧
        ∀ c ∈ rest, isAcqCall c = true) ∧
      (AcqSucceeds e.acq →
        (WindowProc e uMsg s).handle = some s.usb.next ∧
        (WindowProc e uMsg s).brightness = decode_level (received 8 e.acq.getPayload)) ∧
      (¬ Enumerable e.acq → (WindowProc e uMsg s).handle = none)) ∧
    (0 ≤ e.setBytes →
      (WindowProc e uMsg s).usb.calls = s.usb.calls ++
        [setReportCall h (set_report_data (brightness_value (stepped uMsg s.brightness)))] ∧
      (WindowProc e uMsg s).handle = some h) := by
  constructor
  · intro hf
    have hw : WindowProc e uMsg s = reinit_handle e.acq
        { handle := some h
          brightness := stepped uMsg s.brightness
          usb := s.usb.log (setReportCall h
            (set_report_data (brightness_value (stepped uMsg s.brightness)))) } := by
      rcases hm with rfl | rfl
      · exact WindowProc_down_fail e s h hs hf
      · exact WindowProc_up_fail e s h hs hf
    rw [hw]
    refine ⟨?_, fun hsucc => ?_, fun hne => ?_⟩
    · obtain ⟨extra, he, hc, -⟩ := reinit_handle_frame e.acq
        { handle := some h
          brightness := stepped uMsg s.brightness
          usb := s.usb.log (setReportCall h
            (set_report_data (brightness_value (stepped uMsg s.brightness)))) }
      refine ⟨extra, ?_, hc⟩
      rw [he]
      simp [Usb.log]
    · obtain ⟨h1, h2, -⟩ := reinit_handle_of_succeeds e.acq
        { handle := some h
          brightness := stepped uMsg s.brightness
          usb := s.usb.log (setReportCall h
            (set_report_data (brightness_value (stepped uMsg s.brightness)))) } hsucc
      exact ⟨by simpa [Usb.log] using h1, h2⟩
    · cases hh : (reinit_handle e.acq
        { handle := some h
          brightness := stepped uMsg s.brightness
          usb := s.usb.log (setReportCall h
            (set_report_data (brightness_value (stepped uMsg s.brightness)))) }).handle with
      | none => rfl
      | some h' =>
        exact absurd (enumerable_of_succeeds _
          ((reinit_handle_active_iff e.acq _).mp ⟨h', hh⟩)) hne
  · intro hok
    rcases hm with rfl | rfl
    · rw [WindowProc_down_ok e s h hs hok]
      exact ⟨rfl, rfl⟩
    · rw [WindowProc_up_ok e s h hs hok]
      exact ⟨rfl, rfl⟩

/-- Witness of C7: from brightness `1/2` a decrease whose transfer fails, with
the device found again and reporting raw `27000`, ends Active on the new handle
`1` with brightness `1/2` (not `0.49`); an increase whose transfer succeeds
keeps handle `0`. -/
theorem C7_failure_recovery_witness :
    (WindowProc (envFailThenPresent [0x78, 0x69]) 1024 activeHalf).handle = some 1 ∧
    (WindowProc (envFailThenPresent [0x78, 0x69]) 1024 activeHalf).brightness = 1 / 2 ∧
    (WindowProc envOk 1025 activeHalf).handle = some 0 := by
  obtain ⟨h1, h2⟩ := ((C7_failure_recovery (envFailThenPresent [0x78, 0x69]) activeHalf 0 rfl
    1024 (Or.inl rfl)).1 (by decide)).2.1 (acqPresent_succeeds _)
  refine ⟨h1, ?_,
    ((C7_failure_recovery envOk activeHalf 0 rfl 1025 (Or.inr rfl)).2 (by decide)).2⟩
  rw [h2, decode_level_received]
  have hp : (envFailThenPresent [0x78, 0x69]).acq.getPayload = [120, 105] := rfl
  rw [hp]
  have harg : ((([120, 105] : List Nat).getD 0 0 % 256 : Nat) : ℚ) +
      256 * ((([120, 105] : List Nat).getD 1 0 % 256 : Nat) : ℚ) = 27000 := by
    norm_num
  rw [harg]
  exact f32_raw_27000

/-! ## The device locator -/

theorem exists_first_target (descs : List Descriptor) (h : ∃ d ∈ descs, isTarget d) :
    ∃ (k : Nat) (d : Descriptor), descs[k]? = some d ∧ isTarget d ∧
      ∀ (j : Nat) (d' : Descriptor), j < k → descs[j]? = some d' → ¬ isTarget d' := by
  induction descs with
  | nil => simp at h
  | cons x rest ih =>
    by_cases hx : isTarget x
    · exact ⟨0, x, by simp, hx, fun j d' hj => absurd hj (Nat.not_lt_zero j)⟩
    · obtain ⟨d, hmem, hd⟩ := h
      have hrest : ∃ d ∈ rest, isTarget d := by
        rcases List.mem_cons.mp hmem with rfl | hmem
        · exact absurd hd hx
        · exact ⟨d, hmem, hd⟩
      obtain ⟨k, t, hk, ht, hb⟩ := ih hrest
      refine ⟨k + 1, t, by simpa using hk, ht, fun j d' hj hjd => ?_⟩
      cases j with
      | zero =>
        simp at hjd
        exact hjd ▸ hx
      | succ j => exact hb j d' (Nat.lt_of_succ_lt_succ hj) (by simpa using hjd)

/-- C8: when every descriptor read succeeds, `get_lg_ultrafine` returns `NULL`
exactly when no enumerated device has both ids of the target; in that case it
calls `libusb_open` on nothing; otherwise its only `libusb_open` call is on the
first device, in enumeration order, that has both ids.  Every device it opens
has both ids. -/
theorem C8_identity_matching (a : Acq) (u : Usb) (descs : List Descriptor)
    (hd : a.deviceList = some (descs.map some)) :
    ((get_lg_ultrafine a u).2 = .ok none ↔
      ∀ d ∈ descs, ¬ (d.idVendor = 0x43e ∧ d.idProduct = 0x9A63)) ∧
    ((∀ d ∈ descs, ¬ (d.idVendor = 0x43e ∧ d.idProduct = 0x9A63)) →
      opensOf (get_lg_ultrafine a u).1.calls = opensOf u.calls) ∧
    (∀ (k : Nat) (d : Descriptor), descs[k]? = some d →
      (d.idVendor = 0x43e ∧ d.idProduct = 0x9A63) →
      (∀ (j : Nat) (d' : Descriptor), j < k → descs[j]? = some d' →
        ¬ (d'.idVendor = 0x43e ∧ d'.idProduct = 0x9A63)) →
      opensOf (get_lg_ultrafine a u).1.calls = opensOf u.calls ++ [k]) ∧
    (∃ new, opensOf (get_lg_ultrafine a u).1.calls = opensOf u.calls ++ new ∧
      ∀ k ∈ new, ∃ d, descs[k]? = some d ∧ d.idVendor = 0x43e ∧ d.idProduct = 0x9A63) := by
  have hg : get_lg_ultrafine a u =
      get_lg_ultrafine_loop a.openErr (descs.map some) 0 (u.log .libusb_get_device_list) := by
    simp [get_lg_ultrafine, hd]
  have hu : opensOf (u.log .libusb_get_device_list).calls = opensOf u.calls := by
    simp [Usb.log, opensOf]
  have hnone : (∀ d ∈ descs, ¬ isTarget d) →
      ∀ x ∈ descs.map some, ∃ d, x = some d ∧ ¬ isTarget d := by
    intro hall x hx
    obtain ⟨d, hdm, rfl⟩ := List.mem_map.mp hx
    exact ⟨d, rfl, hall d hdm⟩
  have hfirst : ∀ (k : Nat) (d : Descriptor), descs[k]? = some d → isTarget d →
      (∀ (j : Nat) (d' : Descriptor), j < k → descs[j]? = some d' → ¬ isTarget d') →
      opensOf (get_lg_ultrafine a u).1.calls = opensOf u.calls ++ [k] := by
    intro k d hk ht hb
    rw [hg, loop_opens_first a.openErr (descs.map some) 0 _ k d (by simp [hk]) ht, hu]
    · simp
    · intro j hj
      have hjl : j < descs.length := by
        have := (List.getElem?_eq_some_iff.mp hk).1
        omega
      exact ⟨descs[j], by simp [hjl], hb j descs[j] hj (by simp [hjl])⟩
  have hopen0 : (∀ d ∈ descs, ¬ isTarget d) →
      opensOf (get_lg_ultrafine a u).1.calls = opensOf u.calls := by
    intro hall
    rw [hg, loop_opens_none a.openErr (descs.map some) 0 _ (hnone hall), hu]
  refine ⟨?_, hopen0, hfirst, ?_⟩
  · rw [hg, loop_none_iff]
    constructor
    · intro hall d hdm
      obtain ⟨d', hd', hn⟩ := hall (some d) (List.mem_map.mpr ⟨d, hdm, rfl⟩)
      cases hd'
      exact hn
    · exact hnone
  · by_cases hex : ∃ d ∈ descs, isTarget d
    · obtain ⟨k, d, hk, ht, hb⟩ := exists_first_target descs hex
      refine ⟨[k], hfirst k d hk ht hb, ?_⟩
      intro k' hk'
      simp at hk'
      subst hk'
      exact ⟨d, hk, ht⟩
    · refine ⟨[], ?_, by simp⟩
      rw [hopen0 (fun d hdm ht => hex ⟨d, hdm, ht⟩)]
      simp

/-- Witness of C8: with the 5k model first and the target second, the only
device opened is device `1`; with the 5k model alone, none is opened and the
result is `NULL`. -/
theorem C8_identity_matching_witness :
    opensOf (get_lg_ultrafine (acqPresent []) initial.usb).1.calls = [1] ∧
    (get_lg_ultrafine acqAbsent initial.usb).2 = .ok none ∧
    opensOf (get_lg_ultrafine acqAbsent initial.usb).1.calls = [] :=
  ⟨(C8_identity_matching (acqPresent []) initial.usb [ultrafine5k, ultrafine] rfl).2.2.1
      1 ultrafine rfl (by decide)
      (fun j d' hj hd' => by
        have hj0 : j = 0 := by omega
        subst hj0
        cases hd'
        decide),
    (C8_identity_matching acqAbsent initial.usb [ultrafine5k] rfl).1.mpr
      (fun d hd => by
        simp at hd
        subst hd
        decide),
    (C8_identity_matching acqAbsent initial.usb [ultrafine5k] rfl).2.1
      (fun d hd => by
        simp at hd
        subst hd
        decide)⟩

/-- C9 fails on the code: when the target is opened (handle `0`) and claiming
interface 1 fails, `reinit_handle` ends with no handle, `libusb_open` returned
handle `0`, and no `libusb_close` call was made: the handle stays open. -/
theorem C9_claim_failure_leaks_handle :
    (reinit_handle acqClaimFails initial).handle = none ∧
    (reinit_handle acqClaimFails initial).usb.calls =
      [Call.libusb_get_device_list, Call.libusb_get_device_descriptor 0,
        Call.libusb_open 0 (some 0), Call.libusb_free_device_list,
        Call.libusb_set_auto_detach_kernel_driver 0 1, Call.libusb_claim_interface 0 1] ∧
    closesOf (reinit_handle acqClaimFails initial).usb.calls = [] := by
  decide


/-! ## The stored brightness -/

/-- C4, as stated, fails: the program acquires the device, which reports raw
`53946` (in range, level `0.999f`), and handles one increase whose transfer
succeeds; the brightness then held is `4232053/4194304 = 1.00900006...`,
above `1`. -/
theorem C4_stored_brightness_counterexample :
    AcqSucceeds (acqPresent [0xBA, 0xD2]) ∧
    report_value (received 8 (acqPresent [0xBA, 0xD2]).getPayload) = 53946 ∧
    (wWinMain (acqPresent [0xBA, 0xD2]) []).brightness = f32 (999 / 1000) ∧
    (wWinMain (acqPresent [0xBA, 0xD2]) [(envOk, 1025)]).brightness = 4232053 / 4194304 ∧
    ¬ (wWinMain (acqPresent [0xBA, 0xD2]) [(envOk, 1025)]).brightness ≤ 1 := by
  obtain ⟨h1, h2, -⟩ := reinit_handle_of_succeeds (acqPresent [0xBA, 0xD2]) initial
    (acqPresent_succeeds _)
  have hb : (reinit_handle (acqPresent [0xBA, 0xD2]) initial).brightness =
      16760439 / 16777216 := by
    rw [h2, decode_level_received]
    have hp : (acqPresent [0xBA, 0xD2]).getPayload = [186, 210] := rfl
    rw [hp]
    have harg : ((([186, 210] : List Nat).getD 0 0 % 256 : Nat) : ℚ) +
        256 * ((([186, 210] : List Nat).getD 1 0 % 256 : Nat) : ℚ) = 53946 := by
      norm_num
    rw [harg]
    exact f32_raw_53946
  have hup : (wWinMain (acqPresent [0xBA, 0xD2]) [(envOk, 1025)]).brightness =
      4232053 / 4194304 := by
    simp only [wWinMain, dispatch]
    rw [WindowProc_up_ok envOk _ _ h1 (by decide), hb]
    exact up_from_near_top.1
  refine ⟨acqPresent_succeeds _, by decide, ?_, hup, ?_⟩
  · rw [f32_0_999]; exact hb
  · rw [hup]
    norm_num

/-- C4, amended: only the value sent is clamped.  In every run of the program
every SET_REPORT buffer sent carries a raw value in `[0, 54000]`; the brightness
held is not clamped and can leave `[0, 1]`: an increase from brightness `0.999f`
whose transfer succeeds sends raw `54000` (bytes `0xF0 0xD2`) and stores the
`float` sum `4232053/4194304 = 1.00900006...`, above `1`. -/
theorem C4_sent_value_clamped (a : Acq) (msgs : List (Env × Nat)) :
    SentInRange (wWinMain a msgs).usb.calls ∧
    ∀ (s : State) (h : Handle) (e : Env), s.handle = some h → 0 ≤ e.setBytes →
      s.brightness = f32 (999 / 1000) →
      (WindowProc e 1025 s).brightness = 4232053 / 4194304 ∧
      1 < (WindowProc e 1025 s).brightness ∧
      brightness_value (WindowProc e 1025 s).brightness = 54000 ∧
      (WindowProc e 1025 s).usb.calls =
        s.usb.calls ++ [setReportCall h [0xF0, 0xD2, 0, 0, 0, 0]] := by
  refine ⟨?_, fun s h e hs hok hb => ?_⟩
  · apply dispatch_sentInRange
    apply reinit_handle_sentInRange
    intro h' data hmem
    simp [initial] at hmem
  · obtain ⟨hsum, hv⟩ := up_from_near_top
    rw [f32_0_999] at hb
    rw [WindowProc_up_ok e s h hs hok, hb, hsum, hv]
    refine ⟨rfl, by norm_num, rfl, ?_⟩
    rw [set_report_data_eq 54000 (by norm_num)]
    rfl

/-- Witness of C4 amended (Scenario E): on the active session with brightness
`0.999f`, an increase stores `4232053/4194304` and sends the bytes of raw
`54000`. -/
theorem C4_sent_value_clamped_witness :
    (WindowProc envOk 1025 activeNearTop).brightness = 4232053 / 4194304 ∧
    (WindowProc envOk 1025 activeNearTop).usb.calls =
      [Call.libusb_control_transfer 0 0x21 0x09 0x0300 1 [0xF0, 0xD2, 0, 0, 0, 0] 6 0] := by
  obtain ⟨h1, -, -, h4⟩ := (C4_sent_value_clamped acqAbsent []).2 activeNearTop 0 envOk rfl
    (by decide) f32_0_999.symm
  exact ⟨h1, h4⟩

/-! ## Handle discipline -/

/-- C10: the release step of `reinit_handle` calls `libusb_close` on the held
handle when there is one and makes no close call when there is none; after a
`reinit_handle` whose acquisition did not succeed, a second `reinit_handle`
makes no further close call, so the two together make at most one; and over
every run of the program (any messages, any libusb behaviour) no handle is
passed to `libusb_close` twice and the handle held has not been closed. -/
theorem C10_release_idempotent (a a1 a2 : Acq) (msgs : List (Env × Nat)) (s : State) :
    (s.handle = none → closesOf (reinit_handle a1 s).usb.calls = closesOf s.usb.calls) ∧
    (∀ h, s.handle = some h →
      closesOf (reinit_handle a1 s).usb.calls = closesOf s.usb.calls ++ [h]) ∧
    ((reinit_handle a1 s).handle = none →
      closesOf (reinit_handle a2 (reinit_handle a1 s)).usb.calls =
        closesOf (reinit_handle a1 s).usb.calls ∧
      (closesOf (reinit_handle a2 (reinit_handle a1 s)).usb.calls).length ≤
        (closesOf s.usb.calls).length + 1) ∧
    (closesOf (wWinMain a msgs).usb.calls).Nodup ∧
    (∀ h, (wWinMain a msgs).handle = some h → h ∉ closesOf (wWinMain a msgs).usb.calls) := by
  have hrun : HandlesOk (wWinMain a msgs) :=
    dispatch_handlesOk msgs _ (reinit_handle_handlesOk a initial initial_handlesOk)
  refine ⟨fun hs => ?_, fun h hs => ?_, fun hn => ?_, hrun.1, fun h hh => (hrun.2.2 h hh).2⟩
  · rw [reinit_handle_closes, hs]; simp
  · rw [reinit_handle_closes, hs]; simp
  · have h2 : closesOf (reinit_handle a2 (reinit_handle a1 s)).usb.calls =
        closesOf (reinit_handle a1 s).usb.calls := by
      rw [reinit_handle_closes a2, hn]; simp
    refine ⟨h2, ?_⟩
    rw [h2, reinit_handle_closes a1]
    cases s.handle <;> simp

/-- Witness of C10: on an active session on handle `0`, two `reinit_handle`
with no target device close handle `0` exactly once. -/
theorem C10_release_idempotent_witness :
    closesOf (reinit_handle acqAbsent activeHalf).usb.calls = [0] ∧
    closesOf (reinit_handle acqAbsent (reinit_handle acqAbsent activeHalf)).usb.calls =
      closesOf (reinit_handle acqAbsent activeHalf).usb.calls ∧
    closesOf (reinit_handle acqAbsent initial).usb.calls = [] :=
  ⟨(C10_release_idempotent acqAbsent acqAbsent acqAbsent [] activeHalf).2.1 0 rfl,
    ((C10_release_idempotent acqAbsent acqAbsent acqAbsent [] activeHalf).2.2.1
      (by decide)).1,
    (C10_release_idempotent acqAbsent acqAbsent acqAbsent [] initial).1 rfl⟩


end LgUf
